import Mathlib

/-!
# Configuration store and service client of the user-management API suite

A shallow embedding of `src/Utils/Utils.js` (the file-backed configuration
store), `src/Agent/userAgents.js` (the `UserAgent` service client) and the
helpers `loginAsAdmin` and `randomNid` of `src/Agent/helper.js`.

* JavaScript values are the type `JSVal`; a mapping is a list of fields in
  insertion order, each name listed once.
* The file `config.json` is the type `File`.  Its text is represented by what
  `JSON.parse` makes of it, so `JSON.parse (JSON.stringify v)` is the function
  `JSVal.normalize`.
* Code that raises yields `Completion.throws`; asynchronous calls are run to
  completion in program order.
* Members inherited from built-in prototypes, strings and arrays used as
  mappings are not represented: an access that would reach them yields
  `Completion.unmodelled`, about which nothing is claimed.
* `console.log` has no effect on the state and is left out.
-/

set_option autoImplicit false

/-! ## JavaScript values -/

/-- A JavaScript value as the store and the client meet them: `undefined`, or
a JSON value.  Numbers are represented by integers; the code only tests them
against zero and against status codes. -/
inductive JSVal where
  | undefined
  | null
  | bool (b : Bool)
  | num (n : Int)
  | str (s : String)
  | arr (xs : List JSVal)
  | obj (fs : List (String × JSVal))

/-- An error value raised by the code or by the platform. -/
inductive JSError where
  | typeError
  | syntaxError
  | ioError
  | transport
  | error (message : String)
  | assertion

/-- The outcome of running a piece of code: it returns a value, it raises, or
it leaves what this development represents. -/
inductive Completion (α : Type) where
  | returns (a : α)
  | throws (e : JSError)
  | unmodelled

namespace Completion

/-- Sequencing: the continuation runs only after a normal return. -/
def bind {α β : Type} (c : Completion α) (k : α → Completion β) : Completion β :=
  match c with
  | returns a => k a
  | throws e => throws e
  | unmodelled => unmodelled

/-- The statement `try { c } catch (e) { h e }`. -/
def tryCatch {α : Type} (c : Completion α) (h : JSError → Completion α) : Completion α :=
  match c with
  | returns a => returns a
  | throws e => h e
  | unmodelled => unmodelled

end Completion

namespace JSVal

/-- Truthiness: `!v` is `false` exactly when `truthy v`. -/
def truthy : JSVal → Bool
  | undefined => false
  | null => false
  | bool b => b
  | num n => decide (n ≠ 0)
  | str s => decide (s ≠ "")
  | arr _ => true
  | obj _ => true

/-- The test `typeof v === 'object'`: mappings, arrays and `null`. -/
def typeofObject : JSVal → Bool
  | null => true
  | arr _ => true
  | obj _ => true
  | _ => false

/-- The expression `a || b`. -/
def or (a b : JSVal) : JSVal :=
  if a.truthy then a else b

/-- Whether the value is a mapping. -/
def isMapping : JSVal → Bool
  | obj _ => true
  | _ => false

mutual
/-- Whether the value is a JSON value: `undefined` occurs nowhere in it. -/
def isJSON : JSVal → Bool
  | undefined => false
  | arr xs => isJSONList xs
  | obj fs => isJSONFields fs
  | _ => true
/-- Every element of the array is a JSON value. -/
def isJSONList : List JSVal → Bool
  | [] => true
  | v :: t => v.isJSON && isJSONList t
/-- Every field of the mapping holds a JSON value. -/
def isJSONFields : List (String × JSVal) → Bool
  | [] => true
  | (_, v) :: t => v.isJSON && isJSONFields t
end

mutual
/-- The value `JSON.parse (JSON.stringify v)` of a value other than
`undefined`: a field holding `undefined` is dropped, an array element
`undefined` becomes `null`. -/
def normalize : JSVal → JSVal
  | arr xs => arr (normalizeList xs)
  | obj fs => obj (normalizeFields fs)
  | v => v
/-- Serialisation of the elements of an array. -/
def normalizeList : List JSVal → List JSVal
  | [] => []
  | undefined :: t => null :: normalizeList t
  | v :: t => v.normalize :: normalizeList t
/-- Serialisation of the fields of a mapping. -/
def normalizeFields : List (String × JSVal) → List (String × JSVal)
  | [] => []
  | (_, undefined) :: t => normalizeFields t
  | (k, v) :: t => (k, v.normalize) :: normalizeFields t
end

/-- The own field `p` of a mapping, if it has one. -/
def ownProp : List (String × JSVal) → String → Option JSVal
  | [], _ => none
  | (k, x) :: t, p => if k = p then some x else ownProp t p

/-- The fields after `p` is set to `v`: an own field keeps its place, a new
one is added last. -/
def setOwn : List (String × JSVal) → String → JSVal → List (String × JSVal)
  | [], p, v => [(p, v)]
  | (k, x) :: t, p, v => if k = p then (k, v) :: t else (k, x) :: setOwn t p v

/-- The property names of `Object.prototype`; every mapping inherits them. -/
def objectPrototypeNames : List String :=
  ["constructor", "__defineGetter__", "__defineSetter__", "hasOwnProperty",
   "__lookupGetter__", "__lookupSetter__", "isPrototypeOf", "propertyIsEnumerable",
   "toString", "valueOf", "__proto__", "toLocaleString"]

/-- The further property names of `Number.prototype` and `Boolean.prototype`. -/
def numberPrototypeNames : List String :=
  ["toExponential", "toFixed", "toPrecision"]

/-- The read `cur[p]`.  Reading a member of `null` or `undefined` raises a
`TypeError`; a mapping yields its own field, and `undefined` for a name that
is neither own nor inherited; a number or boolean has no own field and yields
`undefined` for a name that no built-in prototype defines.  What an inherited
member, a string or an array yields is not represented. -/
def getMember (cur : JSVal) (p : String) : Completion JSVal :=
  match cur with
  | undefined => .throws .typeError
  | null => .throws .typeError
  | obj fs =>
    match ownProp fs p with
    | some x => .returns x
    | none => if p ∈ objectPrototypeNames then .unmodelled else .returns undefined
  | bool _ => if p ∈ objectPrototypeNames ++ numberPrototypeNames then .unmodelled else .returns undefined
  | num _ => if p ∈ objectPrototypeNames ++ numberPrototypeNames then .unmodelled else .returns undefined
  | str _ => .unmodelled
  | arr _ => .unmodelled

/-- The assignment `cur[p] = v` in strict mode (module code), giving `cur` as
it is afterwards.  On a mapping it sets the own field, except that
`__proto__`, when not an own field, reaches the inherited setter and creates
no field.  On `null` or `undefined`, and on a number, boolean or string, it
raises a `TypeError`, except that the `__proto__` setter ignores a primitive.
Assignments on arrays are not represented. -/
def putMember (cur : JSVal) (p : String) (v : JSVal) : Completion JSVal :=
  match cur with
  | undefined => .throws .typeError
  | null => .throws .typeError
  | obj fs =>
    match ownProp fs p with
    | some _ => .returns (obj (setOwn fs p v))
    | none => if p = "__proto__" then .returns (obj fs) else .returns (obj (setOwn fs p v))
  | bool b => if p = "__proto__" then .returns (bool b) else .throws .typeError
  | num n => if p = "__proto__" then .returns (num n) else .throws .typeError
  | str s => if p = "__proto__" then .returns (str s) else .throws .typeError
  | arr _ => .unmodelled

/-- The value found by following own fields along a path. -/
def getPath : JSVal → List String → Option JSVal
  | v, [] => some v
  | obj fs, p :: rest => (ownProp fs p).bind fun x => getPath x rest
  | _, _ :: _ => none

end JSVal

/-! ## `src/Utils/Utils.js` -/

/-- The file `config.json`: absent (or unreadable), or holding a text, which
`JSON.parse` either rejects (`none`) or turns into a value. -/
inductive File where
  | absent
  | text (parsed : Option JSVal)

/-- A status code and the body of an HTTP response; `body` is `none` when the
body is not JSON, so that `res.json()` rejects. -/
structure Response where
  status : Nat
  body : Option JSVal

/-- The HTTP calls the client makes.  Each carries the base URL it is sent to;
`bearer` is the value interpolated into the header `Authorization: Bearer …`.
The three mutating calls also carry the header `X-AUTH-SECRET-KEY: ROADTOSDET`. -/
inductive Request where
  | postLogin (baseUrl email password : JSVal)
  | getList (baseUrl bearer : JSVal)
  | postCreate (baseUrl bearer data : JSVal)
  | patchUpdate (baseUrl bearer userId data : JSVal)
  | deleteUser (baseUrl bearer userId : JSVal)

/-- A request that was sent, with the response it got, if any. -/
structure Exchange where
  request : Request
  response : Option Response

/-- How a call of `fs.writeFileSync` ends.  The call opens the file with flag
`'w'`, which empties it, and then writes the text.  It succeeds; or it raises
before the file is touched (the file cannot be opened for writing); or it
raises after the open, and then the file holds an empty or cut-off text,
`left` being what `JSON.parse` makes of it (`none` when it is rejected). -/
inductive WriteOutcome where
  | succeeds
  | failsAtOpen
  | failsAfterOpen (left : Option JSVal)

/-- Whether the write succeeded. -/
def WriteOutcome.succeeded : WriteOutcome → Bool
  | .succeeds => true
  | _ => false

/-- Everything outside the client: the configuration file, how the coming
writes of it end (past the end of the list writes succeed), the responses the
service will give to the coming requests in order (past the end of the list a
request fails at the transport), and the exchanges so far. -/
structure World where
  file : File
  writeFaults : List WriteOutcome
  net : List Response
  trace : List Exchange

namespace Utils

/-- The call `fs.readFileSync(CONFIG_PATH, 'utf8')`. -/
def readFileSync (f : File) : Completion (Option JSVal) :=
  match f with
  | .absent => .throws .ioError
  | .text t => .returns t

/-- The call `JSON.parse(raw)`. -/
def jsonParse (raw : Option JSVal) : Completion JSVal :=
  match raw with
  | none => .throws .syntaxError
  | some v => .returns v

/-- The call `JSON.stringify(cfg, null, 2)`: no text for `undefined`. -/
def jsonStringify (cfg : JSVal) : Option (Option JSVal) :=
  match cfg with
  | .undefined => none
  | v => some (some v.normalize)

/-- The call `fs.writeFileSync(CONFIG_PATH, data, 'utf8')`.  A `data` that is
not a string is refused before the file is opened. -/
def writeFileSync (w : World) (data : Option (Option JSVal)) : Completion Unit × World :=
  match data with
  | none => (.throws .typeError, w)
  | some t =>
    match w.writeFaults with
    | .failsAtOpen :: later => (.throws .ioError, { w with writeFaults := later })
    | .failsAfterOpen left :: later =>
      (.throws .ioError, { w with file := .text left, writeFaults := later })
    | .succeeds :: later => (.returns (), { w with file := .text t, writeFaults := later })
    | [] => (.returns (), { w with file := .text t })

/-- The function `getConfig` of `Utils.js`. -/
def getConfig (w : World) : Completion JSVal :=
  Completion.tryCatch ((readFileSync w.file).bind jsonParse) fun _ => .returns (.obj [])

/-- The function `writeConfig` of `Utils.js`: an error of the write is caught
and ignored. -/
def writeConfig (w : World) (cfg : JSVal) : Completion Unit × World :=
  match writeFileSync w (jsonStringify cfg) with
  | (.returns u, w1) => (.returns u, w1)
  | (.throws _, w1) => (.returns (), w1)
  | (.unmodelled, w1) => (.unmodelled, w1)

/-- The call `key.split('.')` on the characters of the key: the first segment
and the segments after it. -/
def splitDot : List Char → String × List String
  | [] => ("", [])
  | c :: cs =>
    if c = '.' then ("", (splitDot cs).1 :: (splitDot cs).2)
    else (String.mk (c :: (splitDot cs).1.data), (splitDot cs).2)

/-- The loop of `setConfig` over the segments of a dotted key, and the
assignment after it.  `p` is the segment at hand and the list holds those
after it.  While segments remain: `if (!cur[p]) cur[p] = {}; cur = cur[p]`;
at the last one: `cur[p] = value`.  The result is `cur` as the in-place
assignments leave it. -/
def walk (cur : JSVal) (p : String) : List String → JSVal → Completion JSVal
  | [], value => cur.putMember p value
  | q :: rest, value =>
    (cur.getMember p).bind fun x =>
    (if x.truthy then .returns cur else cur.putMember p (.obj [])).bind fun cur1 =>
    (cur1.getMember p).bind fun child =>
    (walk child q rest value).bind fun child1 =>
    cur1.putMember p child1

/-- The function `setConfig` of `Utils.js`. -/
def setConfig (w : World) (key value : JSVal) : Completion Unit × World :=
  match getConfig w with
  | .returns cfg =>
    if key.typeofObject then writeConfig w key
    else
      match key with
      | .str k =>
        let updated :=
          if '.' ∈ k.data then walk cfg (splitDot k.data).1 (splitDot k.data).2 value
          else cfg.putMember k value
        match updated with
        | .returns cfg1 => writeConfig w cfg1
        | .throws e => (.throws e, w)
        | .unmodelled => (.unmodelled, w)
      | _ => (.throws .typeError, w)
  | .throws e => (.throws e, w)
  | .unmodelled => (.unmodelled, w)

/-- The segments a string key addresses: those of `key.split('.')` for a
dotted key, the key itself for a flat one. -/
def keyPath (k : String) : List String :=
  if '.' ∈ k.data then (splitDot k.data).1 :: (splitDot k.data).2 else [k]

end Utils

/-! ## `src/Agent/userAgents.js` -/

/-- The object `{ status, body }` that the methods of the client return. -/
structure Reply where
  status : Nat
  body : JSVal

/-- The fields of a `UserAgent`; its `request` fixture is the `World`. -/
structure UserAgent where
  config : JSVal
  token : JSVal
  baseUrl : JSVal

/-- Sending a request (`fetch`, `request.get`, `request.post`, …): the service
gives its next response, and the exchange is recorded. -/
def World.send (w : World) (req : Request) : Option Response × World :=
  match w.net with
  | [] => (none, { w with trace := w.trace ++ [⟨req, none⟩] })
  | r :: later => (some r, { w with net := later, trace := w.trace ++ [⟨req, some r⟩] })

/-- The call `await res.json()`. -/
def Response.json (r : Response) : Completion JSVal :=
  match r.body with
  | none => .throws .syntaxError
  | some b => .returns b

namespace UserAgent

/-- What running a method gives: its outcome, the client and the world after it. -/
abbrev Run (α : Type) := Completion α × UserAgent × World

/-- Sequencing of two steps of a method. -/
def Run.andThen {α β : Type} (r : Run α) (k : α → UserAgent → World → Run β) : Run β :=
  match r with
  | (.returns a, self, w) => k a self w
  | (.throws e, self, w) => (.throws e, self, w)
  | (.unmodelled, self, w) => (.unmodelled, self, w)

/-- The constructor of `UserAgent`. -/
def constructor (w : World) : Completion UserAgent :=
  (Utils.getConfig w).bind fun config =>
  (config.getMember "token").bind fun token =>
  (config.getMember "baseUrl").bind fun baseUrl =>
  .returns { config := config, token := token.or .null, baseUrl := baseUrl.or (.str "") }

/-- The method `login`. -/
def login (self : UserAgent) (w : World) (email password : JSVal) : Run Reply :=
  match w.send (.postLogin self.baseUrl email password) with
  | (none, w1) => (.throws .transport, self, w1)
  | (some res, w1) =>
    match res.json with
    | .returns body => (.returns { status := res.status, body := body }, self, w1)
    | .throws e => (.throws e, self, w1)
    | .unmodelled => (.unmodelled, self, w1)

/-- The method `getUserList`. -/
def getUserList (self : UserAgent) (w : World) (email password : JSVal) : Run Reply :=
  Run.andThen
    (if self.token.truthy then (.returns (), self, w)
     else Run.andThen (login self w email password) fun _ s0 w0 => (.returns (), s0, w0))
    fun _ s1 w1 =>
  match w1.send (.getList s1.baseUrl s1.token) with
  | (none, w2) => (.throws .transport, s1, w2)
  | (some res, w2) =>
    Run.andThen
      (if res.status = 403 then
        Run.andThen (login s1 w2 email password) fun _ s2 w3 =>
        match w3.send (.getList s2.baseUrl s2.token) with
        | (none, w4) => (.throws .transport, s2, w4)
        | (some res2, w4) => (.returns res2, s2, w4)
       else (.returns res, s1, w2))
      fun last s3 w5 =>
    match last.json with
    | .returns body => (.returns { status := last.status, body := body }, s3, w5)
    | .throws e => (.throws e, s3, w5)
    | .unmodelled => (.unmodelled, s3, w5)

/-- The statement `setConfig(key, value)` where evaluating `value` may raise. -/
def setFrom (w : World) (key : String) (value : Completion JSVal) : Completion Unit × World :=
  match value with
  | .returns v => Utils.setConfig w (.str key) v
  | .throws e => (.throws e, w)
  | .unmodelled => (.unmodelled, w)

/-- Sequencing of two statements that act on the store. -/
def storeThen (r : Completion Unit × World) (k : World → Completion Unit × World) :
    Completion Unit × World :=
  match r with
  | (.returns _, w) => k w
  | (.throws e, w) => (.throws e, w)
  | (.unmodelled, w) => (.unmodelled, w)

/-- The method `createUser`. -/
def createUser (self : UserAgent) (w : World) (userPayload : JSVal) : Run Reply :=
  if self.token.truthy then
    match w.send (.postCreate self.baseUrl self.token userPayload) with
    | (none, w1) => (.throws .transport, self, w1)
    | (some res, w1) =>
      match res.json with
      | .returns body =>
        let stored : Completion Unit × World :=
          if res.status = 201 then
            match body.getMember "user" with
            | .returns user =>
              if user.truthy then
                storeThen (setFrom w1 "user.id" (user.getMember "id")) fun w2 =>
                storeThen (setFrom w2 "user.email" (user.getMember "email")) fun w3 =>
                storeThen (setFrom w3 "user.phone_number" (user.getMember "phone_number")) fun w4 =>
                setFrom w4 "user.role" ((user.getMember "role").bind fun r => .returns (r.or (.str "")))
              else (.returns (), w1)
            | .throws e => (.throws e, w1)
            | .unmodelled => (.unmodelled, w1)
          else (.returns (), w1)
        match stored with
        | (.returns _, w5) => (.returns { status := res.status, body := body }, self, w5)
        | (.throws e, w5) => (.throws e, self, w5)
        | (.unmodelled, w5) => (.unmodelled, self, w5)
      | .throws e => (.throws e, self, w1)
      | .unmodelled => (.unmodelled, self, w1)
  else (.throws (.error "Token missing — login first"), self, w)

/-- The method `updateUser`. -/
def updateUser (self : UserAgent) (w : World) (userId data : JSVal) : Run Reply :=
  if self.token.truthy then
    match w.send (.patchUpdate self.baseUrl self.token userId data) with
    | (none, w1) => (.throws .transport, self, w1)
    | (some res, w1) =>
      match res.json with
      | .returns body => (.returns { status := res.status, body := body }, self, w1)
      | .throws e => (.throws e, self, w1)
      | .unmodelled => (.unmodelled, self, w1)
  else (.throws (.error "Token missing — login first"), self, w)

/-- The method `deleteUser`. -/
def deleteUser (self : UserAgent) (w : World) (userId : JSVal) : Run Reply :=
  if self.token.truthy then
    match w.send (.deleteUser self.baseUrl self.token userId) with
    | (none, w1) => (.throws .transport, self, w1)
    | (some res, w1) =>
      match res.json with
      | .returns body => (.returns { status := res.status, body := body }, self, w1)
      | .throws e => (.throws e, self, w1)
      | .unmodelled => (.unmodelled, self, w1)
  else (.throws (.error "Token missing — login first"), self, w)

end UserAgent

/-! ## `src/Agent/helper.js` -/

/-- An outcome of `Math.random()`: a double that is at least 0 and less than
1.  These are the numbers `significand / 2 ^ scale` with a significand of at
most 53 bits and a scale from 53 (the doubles from 1/2 up) to 1074 (the
smallest ones). -/
structure RandomOutcome where
  significand : Nat
  scale : Nat
  significand_lt : significand < 2 ^ 53
  scale_ge : 53 ≤ scale
  scale_le : scale ≤ 1074

namespace Helper

/-- The function `loginAsAdmin`.  The assertion `expect(res.status).toBe(200)`
raises when the status is not 200; `agent.token = res.body.token` and
`setConfig('token', agent.token)` follow it. -/
def loginAsAdmin (agent : UserAgent) (w : World) : UserAgent.Run Reply :=
  UserAgent.Run.andThen (agent.login w (.str "admin@dmoney.com") (.str "1234"))
    fun res agent1 w1 =>
  if res.status = 200 then
    match res.body.getMember "token" with
    | .returns token =>
      match Utils.setConfig w1 (.str "token") token with
      | (.returns _, w2) => (.returns res, { agent1 with token := token }, w2)
      | (.throws e, w2) => (.throws e, { agent1 with token := token }, w2)
      | (.unmodelled, w2) => (.unmodelled, { agent1 with token := token }, w2)
    | .throws e => (.throws e, agent1, w1)
    | .unmodelled => (.unmodelled, agent1, w1)
  else (.throws .assertion, agent1, w1)

/-- The number of low bits that a number below `2 ^ 57` has beyond the 53
bits of a significand (ten times a significand is below `2 ^ 57`). -/
def excessBits (n : Nat) : Nat :=
  if n < 2 ^ 53 then 0
  else if n < 2 ^ 54 then 1
  else if n < 2 ^ 55 then 2
  else if n < 2 ^ 56 then 3
  else 4

/-- The whole number nearest to `n / 2 ^ s`, the even one of the two when `n`
lies halfway: the rounding of IEEE 754 arithmetic. -/
def roundHalfEven (n s : Nat) : Nat :=
  if 2 * (n % 2 ^ s) < 2 ^ s then n / 2 ^ s
  else if 2 * (n % 2 ^ s) = 2 ^ s ∧ (n / 2 ^ s) % 2 = 0 then n / 2 ^ s
  else n / 2 ^ s + 1

/-- The double `Math.random() * 10`, as a numerator over `2 ^ x.scale`: the
product `10 * significand` rounded to a significand of 53 bits. -/
def timesTen (x : RandomOutcome) : Nat :=
  roundHalfEven (10 * x.significand) (excessBits (10 * x.significand))
    * 2 ^ excessBits (10 * x.significand)

/-- The expression `Math.floor(Math.random() * 10)`. -/
def randomDigit (x : RandomOutcome) : Nat :=
  timesTen x / 2 ^ x.scale

/-- The loop `for (let i = 0; i < length; i++) { nid += Math.floor(Math.random() * 10); }`
of `randomNid`, with `remaining` iterations to go; the call of `Math.random()`
in iteration `i` gives `random i`, and `nid += d` appends the decimal digits
of `d`. -/
def randomNidLoop (random : Nat → RandomOutcome) : Nat → Nat → String → String
  | 0, _, nid => nid
  | remaining + 1, i, nid =>
    randomNidLoop random remaining (i + 1) (nid ++ toString (randomDigit (random i)))

/-- The function `randomNid`; `length` is `none` when the argument is left
out, and the default 10 is taken. -/
def randomNid (random : Nat → RandomOutcome) (length : Option Nat) : String :=
  randomNidLoop random (length.getD 10) 0 ""

end Helper

/-! ## Predicates of the statements -/

namespace JSVal

/-- Whether every value that a dotted write meets before its last segment is
a mapping or is falsy (a missing field is not met at all). -/
def mappingsAlong : JSVal → List String → Bool
  | _, [] => true
  | _, [_] => true
  | obj fs, p :: q :: rest =>
    match ownProp fs p with
    | some x => !x.truthy || (x.isMapping && mappingsAlong x (q :: rest))
    | none => true
  | _, _ :: _ :: _ => false

/-- The value the loop of `setConfig` moves into at segment `p` of a mapping:
the own field when it is truthy, a fresh empty mapping otherwise. -/
def stepInto (fs : List (String × JSVal)) (p : String) : JSVal :=
  match ownProp fs p with
  | some x => if x.truthy then x else obj []
  | none => obj []

end JSVal

/-- Whether the next `n` writes of the configuration file succeed. -/
def World.writesOk (w : World) (n : Nat) : Bool :=
  (w.writeFaults.take n).all fun outcome => outcome.succeeded

namespace Utils

/-- The property that `setConfig(k, v)` followed by `getConfig()` returns a
document that contains `v` at path `k`. -/
def readsBack (w : World) (k : String) (v : JSVal) : Prop :=
  ∃ doc, getConfig (setConfig w (.str k) v).2 = .returns doc ∧ doc.getPath (keyPath k) = some v

end Utils

/-- Whether the request is a list request (`GET /user/list`). -/
def Request.isList : Request → Bool
  | .getList _ _ => true
  | _ => false

/-- The list requests sent between two states of the world, each with the
response it got, in order. -/
def World.listsSince (before after : World) : List Exchange :=
  (after.trace.drop before.trace.length).filter fun x => x.request.isList

/-! ## Properties -/

/-! ### Values and fields -/

namespace JSVal

mutual
theorem normalize_of_isJSON : ∀ v : JSVal, v.isJSON = true → v.normalize = v
  | undefined, h => by simp [isJSON] at h
  | null, _ => by simp [normalize]
  | bool _, _ => by simp [normalize]
  | num _, _ => by simp [normalize]
  | str _, _ => by simp [normalize]
  | arr xs, h => by
    simp only [isJSON] at h
    simp [normalize, normalizeList_of_isJSON xs h]
  | obj fs, h => by
    simp only [isJSON] at h
    simp [normalize, normalizeFields_of_isJSON fs h]
theorem normalizeList_of_isJSON :
    ∀ xs : List JSVal, isJSONList xs = true → normalizeList xs = xs
  | [], _ => by simp [normalizeList]
  | v :: t, h => by
    simp only [isJSONList, Bool.and_eq_true] at h
    have hv := normalize_of_isJSON v h.1
    have ht := normalizeList_of_isJSON t h.2
    cases v <;> simp_all [normalizeList, isJSON]
theorem normalizeFields_of_isJSON :
    ∀ fs : List (String × JSVal), isJSONFields fs = true → normalizeFields fs = fs
  | [], _ => by simp [normalizeFields]
  | (k, v) :: t, h => by
    simp only [isJSONFields, Bool.and_eq_true] at h
    have hv := normalize_of_isJSON v h.1
    have ht := normalizeFields_of_isJSON t h.2
    cases v <;> simp_all [normalizeFields, isJSON]
end

theorem ownProp_setOwn_same (fs : List (String × JSVal)) (p : String) (v : JSVal) :
    ownProp (setOwn fs p v) p = some v := by
  induction fs with
  | nil => simp [setOwn, ownProp]
  | cons hd t ih =>
    obtain ⟨k, x⟩ := hd
    by_cases h : k = p <;> simp [setOwn, ownProp, h, ih]

theorem ownProp_setOwn_ne (fs : List (String × JSVal)) (p f : String) (v : JSVal)
    (hf : f ≠ p) : ownProp (setOwn fs p v) f = ownProp fs f := by
  induction fs with
  | nil => simp [setOwn, ownProp, Ne.symm hf]
  | cons hd t ih =>
    obtain ⟨k, x⟩ := hd
    by_cases h : k = p
    · subst h
      simp [setOwn, ownProp, Ne.symm hf]
    · by_cases h2 : k = f
      · subst h2
        simp [setOwn, ownProp, h]
      · simp [setOwn, ownProp, h, h2, ih]

theorem setOwn_setOwn (fs : List (String × JSVal)) (p : String) (a b : JSVal) :
    setOwn (setOwn fs p a) p b = setOwn fs p b := by
  induction fs with
  | nil => simp [setOwn]
  | cons hd t ih =>
    obtain ⟨k, x⟩ := hd
    by_cases h : k = p <;> simp [setOwn, h, ih]

theorem isJSONFields_setOwn (fs : List (String × JSVal)) (p : String) (v : JSVal)
    (hfs : isJSONFields fs = true) (hv : v.isJSON = true) :
    isJSONFields (setOwn fs p v) = true := by
  induction fs with
  | nil => simp [setOwn, isJSONFields, hv]
  | cons hd t ih =>
    obtain ⟨k, x⟩ := hd
    simp only [isJSONFields, Bool.and_eq_true] at hfs
    by_cases h : k = p <;> simp [setOwn, isJSONFields, h, hv, hfs.1, hfs.2, ih]

theorem isJSON_of_ownProp (fs : List (String × JSVal)) (p : String) (x : JSVal)
    (hfs : isJSONFields fs = true) (hx : ownProp fs p = some x) : x.isJSON = true := by
  induction fs with
  | nil => simp [ownProp] at hx
  | cons hd t ih =>
    obtain ⟨k, y⟩ := hd
    simp only [isJSONFields, Bool.and_eq_true] at hfs
    by_cases h : k = p
    · simp [ownProp, h] at hx
      exact hx ▸ hfs.1
    · simp [ownProp, h] at hx
      exact ih hfs.2 hx

theorem ne_proto_of_not_mem {p : String} (hp : p ∉ objectPrototypeNames) :
    p ≠ "__proto__" := by
  intro h
  apply hp
  rw [h]
  decide

theorem mappingsAlong_empty (path : List String) : mappingsAlong (obj []) path = true := by
  match path with
  | [] => rfl
  | [_] => rfl
  | _ :: _ :: _ => simp [mappingsAlong, ownProp]

theorem getPath_of_falsy (x : JSVal) (hx : x.truthy = false) (path : List String)
    (hpath : path ≠ []) : getPath x path = none := by
  cases path with
  | nil => exact absurd rfl hpath
  | cons a t => cases x <;> simp_all [getPath, truthy]

theorem getPath_obj_cons (fs : List (String × JSVal)) (p : String) (path : List String) :
    getPath (obj fs) (p :: path) = (ownProp fs p).bind fun x => getPath x path := by
  simp [getPath]

theorem stepInto_spec (fs : List (String × JSVal)) (p q : String) (rest : List String)
    (hm : mappingsAlong (obj fs) (p :: q :: rest) = true) :
    ∃ xs, stepInto fs p = obj xs ∧ mappingsAlong (obj xs) (q :: rest) = true ∧
      (isJSONFields fs = true → isJSONFields xs = true) ∧
      ∀ path, path ≠ [] →
        getPath (obj xs) path = (ownProp fs p).bind fun x => getPath x path := by
  cases h : ownProp fs p with
  | none =>
    refine ⟨[], by simp [stepInto, h], mappingsAlong_empty _, fun _ => rfl, ?_⟩
    intro path hpath
    cases path with
    | nil => exact absurd rfl hpath
    | cons a t => simp [getPath, ownProp]
  | some x =>
    cases ht : x.truthy with
    | false =>
      refine ⟨[], by simp [stepInto, h, ht], mappingsAlong_empty _, fun _ => rfl, ?_⟩
      intro path hpath
      rw [Option.some_bind, getPath_of_falsy x ht path hpath]
      cases path with
      | nil => exact absurd rfl hpath
      | cons a t => simp [getPath, ownProp]
    | true =>
      simp only [mappingsAlong, h, ht, Bool.not_true, Bool.false_or, Bool.and_eq_true] at hm
      cases x with
      | obj xs =>
        refine ⟨xs, by simp [stepInto, h, ht], hm.2, ?_, fun _ _ => rfl⟩
        intro hfs
        have := isJSON_of_ownProp fs p _ hfs h
        simpa [isJSON] using this
      | _ => simp [isMapping] at hm

end JSVal

/-! ### The walk of `setConfig` and the write of the file -/

namespace Utils
open JSVal Utils

theorem walk_cons_obj (fs : List (String × JSVal)) (p q : String) (rest : List String)
    (v : JSVal) (hp : p ∉ objectPrototypeNames) :
    walk (obj fs) p (q :: rest) v =
      (walk (stepInto fs p) q rest v).bind fun c => .returns (obj (setOwn fs p c)) := by
  have hproto := ne_proto_of_not_mem hp
  have hfresh : ∀ c, (obj (setOwn fs p (obj []))).putMember p c
      = .returns (obj (setOwn fs p c)) := by
    intro c
    simp [putMember, ownProp_setOwn_same, setOwn_setOwn]
  cases h : ownProp fs p with
  | none =>
    simp only [walk, getMember, h, hp, if_false, Completion.bind, truthy, putMember, hproto,
      ownProp_setOwn_same, stepInto, Bool.false_eq_true]
    cases walk (obj []) q rest v <;> simp [setOwn_setOwn]
  | some x =>
    cases ht : x.truthy with
    | false =>
      simp only [walk, getMember, h, Completion.bind, ht, putMember,
        ownProp_setOwn_same, stepInto, Bool.false_eq_true, if_false]
      cases walk (obj []) q rest v <;> simp [setOwn_setOwn]
    | true =>
      simp only [walk, getMember, h, Completion.bind, ht, putMember, stepInto, if_true]

theorem walk_spec : ∀ (rest : List String) (p : String) (fs : List (String × JSVal))
    (v : JSVal), (∀ s ∈ p :: rest, s ∉ objectPrototypeNames) →
    mappingsAlong (obj fs) (p :: rest) = true →
    ∃ fs1, walk (obj fs) p rest v = .returns (obj fs1) ∧
      getPath (obj fs1) (p :: rest) = some v ∧
      (isJSONFields fs = true → v.isJSON = true → isJSONFields fs1 = true) ∧
      ∀ pre s suf, p :: rest = pre ++ s :: suf →
        (∃ gs, getPath (obj fs1) pre = some (obj gs)) ∧
        ∀ f, f ≠ s → getPath (obj fs1) (pre ++ [f]) = getPath (obj fs) (pre ++ [f]) := by
  intro rest
  induction rest with
  | nil =>
    intro p fs v hn _
    have hproto := ne_proto_of_not_mem (hn p (by simp))
    refine ⟨setOwn fs p v, ?_, ?_, isJSONFields_setOwn fs p v, ?_⟩
    · cases h : ownProp fs p <;> simp [walk, putMember, h, hproto]
    · simp [getPath, ownProp_setOwn_same]
    · intro pre s suf h
      cases pre with
      | nil =>
        simp only [List.nil_append, List.cons.injEq] at h
        obtain ⟨rfl, _⟩ := h
        refine ⟨⟨_, rfl⟩, ?_⟩
        intro f hf
        simp [getPath, ownProp_setOwn_ne _ _ _ _ hf]
      | cons a t => simp at h
  | cons q rest ih =>
    intro p fs v hn hm
    have hp := hn p (by simp)
    obtain ⟨xs, hstep, hmx, hjx, hgx⟩ := stepInto_spec fs p q rest hm
    obtain ⟨xs1, hw, hget, hjs, hfr⟩ :=
      ih q xs v (fun s hs => hn s (List.mem_cons_of_mem _ hs)) hmx
    refine ⟨setOwn fs p (obj xs1), ?_, ?_, ?_, ?_⟩
    · rw [walk_cons_obj fs p q rest v hp, hstep, hw, Completion.bind]
    · rw [getPath_obj_cons, ownProp_setOwn_same]
      exact hget
    · intro hfs hv
      exact isJSONFields_setOwn fs p _ hfs (by simpa [isJSON] using hjs (hjx hfs) hv)
    · intro pre s suf h
      cases pre with
      | nil =>
        simp only [List.nil_append, List.cons.injEq] at h
        obtain ⟨rfl, _⟩ := h
        refine ⟨⟨_, rfl⟩, ?_⟩
        intro f hf
        simp [getPath, ownProp_setOwn_ne _ _ _ _ hf]
      | cons a t =>
        simp only [List.cons_append, List.cons.injEq] at h
        obtain ⟨rfl, h⟩ := h
        obtain ⟨hmap, hsame⟩ := hfr t s suf h
        refine ⟨?_, ?_⟩
        · rw [getPath_obj_cons, ownProp_setOwn_same]
          exact hmap
        · intro f hf
          rw [List.cons_append, getPath_obj_cons, ownProp_setOwn_same, getPath_obj_cons,
            Option.some_bind, hsame f hf]
          exact hgx _ (by simp)

theorem getConfig_eq (w : World) :
    getConfig w = .returns
      (match w.file with
       | .absent => obj []
       | .text none => obj []
       | .text (some v) => v) := by
  cases hf : w.file with
  | absent => simp [getConfig, readFileSync, hf, Completion.bind, Completion.tryCatch]
  | text t =>
    cases t <;> simp [getConfig, readFileSync, jsonParse, hf, Completion.bind, Completion.tryCatch]

theorem getConfig_written (w : World) (d : JSVal) (faults : List WriteOutcome) :
    getConfig { w with file := .text (some d), writeFaults := faults } = .returns d := by
  simp [getConfig_eq]

theorem getConfig_congr (w w1 : World) (h : w1.file = w.file) : getConfig w1 = getConfig w := by
  simp [getConfig, h]

theorem writeConfig_ok (w : World) (cfg : JSVal) (hw : w.writesOk 1 = true)
    (hcfg : cfg.isJSON = true) :
    writeConfig w cfg =
      (.returns (), { w with file := .text (some cfg), writeFaults := w.writeFaults.tail }) := by
  have hs : jsonStringify cfg = some (some cfg) := by
    cases cfg <;> simp_all [jsonStringify, isJSON, normalize_of_isJSON]
  obtain ⟨file, faults, net, trace⟩ := w
  cases faults with
  | nil => simp [writeConfig, writeFileSync, hs]
  | cons b later =>
    cases b with
    | succeeds => simp [writeConfig, writeFileSync, hs]
    | failsAtOpen => simp [World.writesOk, WriteOutcome.succeeded] at hw
    | failsAfterOpen left => simp [World.writesOk, WriteOutcome.succeeded] at hw

theorem writesOk_one_of_succ (w : World) (n : Nat) (h : w.writesOk (n + 1) = true) :
    w.writesOk 1 = true := by
  obtain ⟨file, faults, net, trace⟩ := w
  cases faults <;> simp_all [World.writesOk]

theorem writesOk_tail (w : World) (f : File) (n : Nat) (h : w.writesOk (n + 1) = true) :
    World.writesOk { w with file := f, writeFaults := w.writeFaults.tail } n = true := by
  obtain ⟨file, faults, net, trace⟩ := w
  cases faults <;> simp_all [World.writesOk]

theorem writesOk_congr (w w1 : World) (n : Nat) (h : w1.writeFaults = w.writeFaults) :
    w1.writesOk n = w.writesOk n := by
  simp [World.writesOk, h]

theorem setConfig_str_eq (w : World) (k : String) (v cfg : JSVal)
    (hdoc : getConfig w = .returns cfg) :
    ∃ p rest, keyPath k = p :: rest ∧
      setConfig w (.str k) v =
        match walk cfg p rest v with
        | .returns cfg1 => writeConfig w cfg1
        | .throws e => (.throws e, w)
        | .unmodelled => (.unmodelled, w) := by
  by_cases hdot : '.' ∈ k.data
  · exact ⟨(splitDot k.data).1, (splitDot k.data).2, by simp [keyPath, hdot],
      by simp [setConfig, hdoc, typeofObject, hdot]⟩
  · exact ⟨k, [], by simp [keyPath, hdot], by simp [setConfig, hdoc, typeofObject, hdot, walk]⟩

theorem setConfig_path_spec (w : World) (fs : List (String × JSVal)) (k : String) (v : JSVal)
    (hdoc : getConfig w = .returns (obj fs)) (hjson : isJSONFields fs = true)
    (hv : v.isJSON = true) (hnames : ∀ p ∈ keyPath k, p ∉ objectPrototypeNames)
    (hpath : mappingsAlong (obj fs) (keyPath k) = true) (hw : w.writesOk 1 = true) :
    ∃ fs1, setConfig w (.str k) v =
        (.returns (), { w with file := .text (some (obj fs1)),
                               writeFaults := w.writeFaults.tail }) ∧
      isJSONFields fs1 = true ∧
      getPath (obj fs1) (keyPath k) = some v ∧
      ∀ pre s suf, keyPath k = pre ++ s :: suf →
        (∃ gs, getPath (obj fs1) pre = some (obj gs)) ∧
        ∀ f, f ≠ s → getPath (obj fs1) (pre ++ [f]) = getPath (obj fs) (pre ++ [f]) := by
  obtain ⟨p, rest, hk, hset⟩ := setConfig_str_eq w k v (obj fs) hdoc
  rw [hk] at hnames hpath
  obtain ⟨fs1, hwalk, hget, hjs, hframe⟩ := walk_spec rest p fs v hnames hpath
  have hj1 := hjs hjson hv
  refine ⟨fs1, ?_, hj1, hk ▸ hget, fun pre s suf h => hframe pre s suf (hk ▸ h)⟩
  rw [hset, hwalk]
  exact writeConfig_ok w (obj fs1) hw (by simpa [isJSON] using hj1)

/-- One write of a field of `user`, as `createUser` makes four of. -/
theorem setConfig_user_field (w : World) (fs : List (String × JSVal)) (k x : String)
    (v : JSVal) (hk : keyPath k = ["user", x]) (hx : x ∉ objectPrototypeNames)
    (hdoc : getConfig w = .returns (obj fs)) (hjson : isJSONFields fs = true)
    (hv : v.isJSON = true) (hstore : mappingsAlong (obj fs) ["user", x] = true)
    (hw : w.writesOk 1 = true) :
    ∃ fs1 w1, setConfig w (.str k) v = (.returns (), w1) ∧
      getConfig w1 = .returns (obj fs1) ∧
      (∀ n, w.writesOk (n + 1) = true → w1.writesOk n = true) ∧
      isJSONFields fs1 = true ∧
      getPath (obj fs1) ["user", x] = some v ∧
      (∀ f, f ≠ "user" → getPath (obj fs1) [f] = getPath (obj fs) [f]) ∧
      (∀ g, g ≠ x → getPath (obj fs1) ["user", g] = getPath (obj fs) ["user", g]) ∧
      ∀ y, mappingsAlong (obj fs1) ["user", y] = true := by
  have hnames : ∀ p ∈ keyPath k, p ∉ objectPrototypeNames := by
    rw [hk]
    intro p hp
    simp only [List.mem_cons, List.mem_singleton, List.not_mem_nil, or_false] at hp
    rcases hp with rfl | rfl
    · decide
    · exact hx
  obtain ⟨fs1, hset, hj1, hget, hfr⟩ :=
    setConfig_path_spec w fs k v hdoc hjson hv hnames (by rw [hk]; exact hstore) hw
  rw [hk] at hget hfr
  refine ⟨fs1, _, hset, getConfig_written w _ _, fun n hn => writesOk_tail w _ n hn, hj1, hget,
    ?_, ?_, ?_⟩
  · intro f hf
    exact (hfr [] "user" [x] rfl).2 f hf
  · intro g hg
    exact (hfr ["user"] x [] rfl).2 g hg
  · intro y
    obtain ⟨gs, hgs⟩ := (hfr ["user"] x [] rfl).1
    simp only [getPath, Option.bind_eq_some] at hgs
    obtain ⟨u, hu, hu2⟩ := hgs
    cases hu2
    simp [mappingsAlong, hu, isMapping]

end Utils

/-! ### The configuration store: read-after-write, deep merge, resilient read -/

namespace Utils
open JSVal Utils

/-- C1 (amended): when the persisted document is a mapping of JSON values
(or the file is missing or unparseable), no segment of the key names a member
of `Object.prototype`, every value the key meets before its last segment is a
mapping or falsy, `v` is a JSON value and the write of the file succeeds,
`setConfig(k, v)` returns and `getConfig()` then holds `v` at path `k`. -/
theorem setConfig_read_after_write (w : World) (fs : List (String × JSVal)) (k : String)
    (v : JSVal) (hdoc : getConfig w = .returns (obj fs)) (hjson : isJSONFields fs = true)
    (hv : v.isJSON = true) (hnames : ∀ p ∈ keyPath k, p ∉ objectPrototypeNames)
    (hpath : mappingsAlong (obj fs) (keyPath k) = true) (hw : w.writesOk 1 = true) :
    (setConfig w (.str k) v).1 = .returns () ∧ readsBack w k v := by
  obtain ⟨fs1, hset, _, hget, _⟩ := setConfig_path_spec w fs k v hdoc hjson hv hnames hpath hw
  refine ⟨by rw [hset], obj fs1, ?_, hget⟩
  rw [hset]
  exact getConfig_written w _ _

/-- A populated document on which the key `user.id` reads back. -/
theorem setConfig_read_after_write_witness :
    (setConfig ⟨.text (some (obj [("token", str "t"), ("user", obj [("id", num 1)])])), [], [], []⟩
        (.str "user.id") (num 7)).1 = .returns () ∧
      readsBack ⟨.text (some (obj [("token", str "t"), ("user", obj [("id", num 1)])])), [], [], []⟩
        "user.id" (num 7) :=
  setConfig_read_after_write _ [("token", str "t"), ("user", obj [("id", num 1)])] "user.id"
    (num 7) rfl rfl rfl (by decide) rfl rfl

/-- C1 as stated fails: on the document `{"user": 5}` the call
`setConfig('user.id', 1)` raises a `TypeError`, and `getConfig()` does not hold
`1` at `user.id`. -/
theorem setConfig_read_after_write_fails :
    (setConfig ⟨.text (some (obj [("user", num 5)])), [], [], []⟩ (.str "user.id") (num 1)).1
        = .throws .typeError ∧
      ¬ readsBack ⟨.text (some (obj [("user", num 5)])), [], [], []⟩ "user.id" (num 1) := by
  refine ⟨rfl, ?_⟩
  rintro ⟨doc, hdoc, hget⟩
  have e : getConfig (setConfig ⟨.text (some (obj [("user", num 5)])), [], [], []⟩
      (.str "user.id") (num 1)).2 = .returns (obj [("user", num 5)]) := rfl
  rw [e] at hdoc
  cases hdoc
  have e2 : getPath (obj [("user", num 5)]) (keyPath "user.id") = none := rfl
  rw [e2] at hget
  cases hget

/-- C2 (amended): when the persisted document is a mapping of JSON values (or
the file is missing or unparseable), its `user` field is absent, falsy or a
mapping, `a` and `b` are JSON values and both writes of the file succeed,
`setConfig('user.id', a)` then `setConfig('user.email', b)` leave a document
whose `user` mapping holds `id = a` and `email = b`.  In general, under the
conditions of a successful write (no segment names a member of
`Object.prototype`, every value met before the last segment is a mapping or
falsy), after `setConfig(k, v)` every proper prefix of the path addresses a
mapping, and in each of these mappings every field other than the one the
path takes is as it was before (a created mapping has no other field). -/
theorem setConfig_deep_merge :
    (∀ (w : World) (fs : List (String × JSVal)) (a b : JSVal),
      getConfig w = .returns (obj fs) → isJSONFields fs = true →
      a.isJSON = true → b.isJSON = true →
      mappingsAlong (obj fs) ["user", "id"] = true → w.writesOk 2 = true →
      (setConfig w (.str "user.id") a).1 = .returns () ∧
      (setConfig (setConfig w (.str "user.id") a).2 (.str "user.email") b).1 = .returns () ∧
      ∃ doc,
        getConfig (setConfig (setConfig w (.str "user.id") a).2 (.str "user.email") b).2
          = .returns doc ∧
        doc.getPath ["user", "id"] = some a ∧ doc.getPath ["user", "email"] = some b) ∧
    (∀ (w : World) (fs : List (String × JSVal)) (k : String) (v : JSVal),
      getConfig w = .returns (obj fs) → isJSONFields fs = true → v.isJSON = true →
      (∀ p ∈ keyPath k, p ∉ objectPrototypeNames) →
      mappingsAlong (obj fs) (keyPath k) = true → w.writesOk 1 = true →
      ∃ doc, getConfig (setConfig w (.str k) v).2 = .returns doc ∧
        ∀ pre s suf, keyPath k = pre ++ s :: suf →
          (∃ gs, doc.getPath pre = some (obj gs)) ∧
          ∀ f, f ≠ s → doc.getPath (pre ++ [f]) = (obj fs).getPath (pre ++ [f])) := by
  constructor
  · intro w fs a b hdoc hjson ha hb huser hw
    have hid : keyPath "user.id" = ["user", "id"] := by decide
    have hemail : keyPath "user.email" = ["user", "email"] := by decide
    obtain ⟨fs1, hset1, hj1, hget1, hfr1⟩ :=
      setConfig_path_spec w fs "user.id" a hdoc hjson ha (by decide) (by rw [hid]; exact huser)
        (writesOk_one_of_succ w 1 hw)
    rw [hid] at hget1 hfr1
    obtain ⟨gs, hgs⟩ := (hfr1 ["user"] "id" [] rfl).1
    have hdoc1 : getConfig (setConfig w (.str "user.id") a).2 = .returns (obj fs1) := by
      rw [hset1]
      exact getConfig_written w _ _
    have huser1 : mappingsAlong (obj fs1) (keyPath "user.email") = true := by
      rw [hemail]
      simp only [getPath, Option.bind_eq_some] at hgs
      obtain ⟨x, hx, hx2⟩ := hgs
      cases hx2
      simp [mappingsAlong, hx, isMapping]
    have hw1 : World.writesOk (setConfig w (.str "user.id") a).2 1 = true := by
      rw [hset1]
      exact writesOk_tail w _ 1 hw
    obtain ⟨fs2, hset2, _, hget2, hfr2⟩ :=
      setConfig_path_spec _ fs1 "user.email" b hdoc1 hj1 hb (by decide) huser1 hw1
    rw [hemail] at hget2 hfr2
    refine ⟨by rw [hset1], by rw [hset2], obj fs2, ?_, ?_, hget2⟩
    · rw [hset2]
      exact getConfig_written _ _ _
    · have := (hfr2 ["user"] "email" [] rfl).2 "id" (by decide)
      simpa [hget1] using this
  · intro w fs k v hdoc hjson hv hnames hpath hw
    obtain ⟨fs1, hset, _, _, hfr⟩ := setConfig_path_spec w fs k v hdoc hjson hv hnames hpath hw
    refine ⟨obj fs1, ?_, hfr⟩
    rw [hset]
    exact getConfig_written w _ _

/-- Both parts at concrete inputs: an empty store receiving `user.id` and
`user.email`, and a populated store receiving `user.profile.name`. -/
theorem setConfig_deep_merge_witness :
    (∃ doc,
      getConfig (setConfig (setConfig ⟨.absent, [], [], []⟩ (.str "user.id") (num 3)).2
        (.str "user.email") (str "a@b.c")).2 = .returns doc ∧
      doc.getPath ["user", "id"] = some (num 3) ∧
      doc.getPath ["user", "email"] = some (str "a@b.c")) ∧
    (∃ doc,
      getConfig (setConfig ⟨.text (some (obj [("token", str "t"), ("user", obj [("id", num 1)])])),
        [.succeeds], [], []⟩ (.str "user.profile.name") (str "n")).2 = .returns doc ∧
      ∀ pre s suf, keyPath "user.profile.name" = pre ++ s :: suf →
        (∃ gs, doc.getPath pre = some (obj gs)) ∧
        ∀ f, f ≠ s → doc.getPath (pre ++ [f])
          = (obj [("token", str "t"), ("user", obj [("id", num 1)])]).getPath (pre ++ [f])) :=
  ⟨(setConfig_deep_merge.1 ⟨.absent, [], [], []⟩ [] (num 3) (str "a@b.c")
      rfl rfl rfl rfl rfl rfl).2.2,
   setConfig_deep_merge.2
      ⟨.text (some (obj [("token", str "t"), ("user", obj [("id", num 1)])])), [.succeeds], [], []⟩
      [("token", str "t"), ("user", obj [("id", num 1)])] "user.profile.name" (str "n")
      rfl rfl rfl (by decide) rfl rfl⟩

/-- C2 as stated fails: starting from the document `{"user": true}` both
writes raise a `TypeError` and the document never holds `user.id` and
`user.email`. -/
theorem setConfig_deep_merge_fails :
    (setConfig ⟨.text (some (obj [("user", bool true)])), [], [], []⟩
        (.str "user.id") (num 1)).1 = .throws .typeError ∧
    ¬ ∃ doc,
      getConfig (setConfig (setConfig ⟨.text (some (obj [("user", bool true)])), [], [], []⟩
        (.str "user.id") (num 1)).2 (.str "user.email") (str "e")).2 = .returns doc ∧
      doc.getPath ["user", "id"] = some (num 1) ∧
      doc.getPath ["user", "email"] = some (str "e") := by
  refine ⟨rfl, ?_⟩
  rintro ⟨doc, hdoc, hid, _⟩
  have e : getConfig (setConfig (setConfig ⟨.text (some (obj [("user", bool true)])), [], [], []⟩
      (.str "user.id") (num 1)).2 (.str "user.email") (str "e")).2
      = .returns (obj [("user", bool true)]) := rfl
  rw [e] at hdoc
  cases hdoc
  have e2 : getPath (obj [("user", bool true)]) ["user", "id"] = none := rfl
  rw [e2] at hid
  cases hid

/-- C3: `getConfig` never raises; it returns the parsed document when the
file exists and is JSON, and an empty mapping when the file is missing or its
text does not parse. -/
theorem getConfig_resilient (w : World) :
    getConfig w = .returns
      (match w.file with
       | .absent => obj []
       | .text none => obj []
       | .text (some v) => v) :=
  getConfig_eq w

end Utils

/-! ### The service client -/

namespace UserAgent
open JSVal Utils

/-- C4: on a client that holds no token, `createUser`, `updateUser` and
`deleteUser` each raise the error `Token missing — login first`, and leave
the world as it was: no request is sent and the store is not touched. -/
theorem token_required (self : UserAgent) (w : World) (userPayload userId data : JSVal)
    (hno : self.token.truthy = false) :
    createUser self w userPayload = (.throws (.error "Token missing — login first"), self, w) ∧
    updateUser self w userId data = (.throws (.error "Token missing — login first"), self, w) ∧
    deleteUser self w userId = (.throws (.error "Token missing — login first"), self, w) := by
  simp [createUser, updateUser, deleteUser, hno]

/-- A client built without a token, facing a service that would answer. -/
theorem token_required_witness :
    createUser ⟨obj [], null, str "http://host"⟩ ⟨.absent, [], [⟨201, some (obj [])⟩], []⟩ (obj [])
      = (.throws (.error "Token missing — login first"), ⟨obj [], null, str "http://host"⟩,
         ⟨.absent, [], [⟨201, some (obj [])⟩], []⟩) ∧
    updateUser ⟨obj [], null, str "http://host"⟩ ⟨.absent, [], [⟨201, some (obj [])⟩], []⟩
        (num 4) (obj [])
      = (.throws (.error "Token missing — login first"), ⟨obj [], null, str "http://host"⟩,
         ⟨.absent, [], [⟨201, some (obj [])⟩], []⟩) ∧
    deleteUser ⟨obj [], null, str "http://host"⟩ ⟨.absent, [], [⟨201, some (obj [])⟩], []⟩ (num 4)
      = (.throws (.error "Token missing — login first"), ⟨obj [], null, str "http://host"⟩,
         ⟨.absent, [], [⟨201, some (obj [])⟩], []⟩) :=
  token_required ⟨obj [], null, str "http://host"⟩ ⟨.absent, [], [⟨201, some (obj [])⟩], []⟩
    (obj []) (num 4) (obj []) rfl

/-- C5 (amended): on a client that holds a token, when the service answers
the create request with a JSON body and either the status is not 201, or
reading `body.user` gives a falsy value (the field is missing or falsy),
`createUser` returns that status and body, and neither writes nor changes the
configuration file. -/
theorem createUser_failure_leaves_store (self : UserAgent) (w : World) (userPayload : JSVal)
    (r : Response) (later : List Response) (body : JSVal)
    (htok : self.token.truthy = true) (hnet : w.net = r :: later) (hbody : r.body = some body)
    (hfail : r.status ≠ 201 ∨ ∃ u, body.getMember "user" = .returns u ∧ u.truthy = false) :
    (createUser self w userPayload).1 = .returns { status := r.status, body := body } ∧
    (createUser self w userPayload).2.2.file = w.file ∧
    (createUser self w userPayload).2.2.writeFaults = w.writeFaults := by
  obtain ⟨file, faults, net, trace⟩ := w
  obtain ⟨status, rbody⟩ := r
  simp only at hnet hbody
  subst hnet hbody
  rcases hfail with hne | ⟨u, hu, hfalsy⟩
  · simp only at hne
    simp [createUser, htok, World.send, Response.json, hne]
  · by_cases h201 : status = 201
    · simp [createUser, htok, World.send, Response.json, h201, hu, hfalsy]
    · simp [createUser, htok, World.send, Response.json, h201]

/-- A duplicate email answered with status 409 and a message. -/
theorem createUser_failure_leaves_store_witness :
    (createUser ⟨obj [], str "tok", str "http://host"⟩
        ⟨.text (some (obj [("user", obj [("id", num 7)])])), [],
          [⟨409, some (obj [("message", str "User already exists")])⟩], []⟩ (obj [])).1
      = .returns { status := 409, body := obj [("message", str "User already exists")] } ∧
    (createUser ⟨obj [], str "tok", str "http://host"⟩
        ⟨.text (some (obj [("user", obj [("id", num 7)])])), [],
          [⟨409, some (obj [("message", str "User already exists")])⟩], []⟩ (obj [])).2.2.file
      = .text (some (obj [("user", obj [("id", num 7)])])) ∧
    (createUser ⟨obj [], str "tok", str "http://host"⟩
        ⟨.text (some (obj [("user", obj [("id", num 7)])])), [],
          [⟨409, some (obj [("message", str "User already exists")])⟩], []⟩
        (obj [])).2.2.writeFaults = [] :=
  createUser_failure_leaves_store ⟨obj [], str "tok", str "http://host"⟩
    ⟨.text (some (obj [("user", obj [("id", num 7)])])), [],
      [⟨409, some (obj [("message", str "User already exists")])⟩], []⟩ (obj [])
    ⟨409, some (obj [("message", str "User already exists")])⟩ []
    (obj [("message", str "User already exists")]) rfl rfl rfl (Or.inl (by decide))

/-- C5 as stated fails: a response with status 201 whose body is
`{"user": true}` has no user object, yet `createUser` rewrites the store:
the stored `user.id` is lost and `user.role` is set to the empty string. -/
theorem createUser_failure_leaves_store_fails :
    (createUser ⟨obj [], str "tok", str "http://host"⟩
        ⟨.text (some (obj [("user", obj [("id", num 7)])])), [],
          [⟨201, some (obj [("user", bool true)])⟩], []⟩ (obj [])).2.2.file
      = .text (some (obj [("user", obj [("role", str "")])])) ∧
    (createUser ⟨obj [], str "tok", str "http://host"⟩
        ⟨.text (some (obj [("user", obj [("id", num 7)])])), [],
          [⟨201, some (obj [("user", bool true)])⟩], []⟩ (obj [])).2.2.file
      ≠ .text (some (obj [("user", obj [("id", num 7)])])) := by
  have e : (createUser ⟨obj [], str "tok", str "http://host"⟩
        ⟨.text (some (obj [("user", obj [("id", num 7)])])), [],
          [⟨201, some (obj [("user", bool true)])⟩], []⟩ (obj [])).2.2.file
      = .text (some (obj [("user", obj [("role", str "")])])) := rfl
  refine ⟨e, ?_⟩
  rw [e]
  simp

/-- C6 (amended): on a client that holds a token, when the service answers
the create request with status 201 and a JSON body whose `user` is a mapping
carrying `id`, `email` and `phone_number`, the persisted document is a
mapping of JSON values (or the file is missing or unparseable) whose `user`
field is absent, falsy or a mapping, and the four writes of the file succeed,
then `createUser` returns `{status: 201, body}` and the store afterwards holds
`user.id`, `user.email` and `user.phone_number` equal to those fields of
`body.user`, holds `user.role` equal to `body.user.role || ''`, and every
other top-level field and every other field of `user` is as it was. -/
theorem createUser_persists (self : UserAgent) (w : World) (userPayload : JSVal)
    (r : Response) (later : List Response) (bfs ufs fs : List (String × JSVal))
    (i e ph : JSVal)
    (htok : self.token.truthy = true) (hnet : w.net = r :: later) (hstatus : r.status = 201)
    (hbody : r.body = some (obj bfs)) (hbjson : isJSONFields bfs = true)
    (huser : ownProp bfs "user" = some (obj ufs))
    (hid : ownProp ufs "id" = some i) (hemail : ownProp ufs "email" = some e)
    (hphone : ownProp ufs "phone_number" = some ph)
    (hdoc : getConfig w = .returns (obj fs)) (hjson : isJSONFields fs = true)
    (hstore : mappingsAlong (obj fs) ["user", "id"] = true) (hw : w.writesOk 4 = true) :
    (createUser self w userPayload).1 = .returns { status := 201, body := obj bfs } ∧
    ∃ doc, getConfig (createUser self w userPayload).2.2 = .returns doc ∧
      doc.getPath ["user", "id"] = some i ∧
      doc.getPath ["user", "email"] = some e ∧
      doc.getPath ["user", "phone_number"] = some ph ∧
      doc.getPath ["user", "role"]
        = some (((ownProp ufs "role").getD undefined).or (str "")) ∧
      (∀ f, f ≠ "user" → doc.getPath [f] = (obj fs).getPath [f]) ∧
      (∀ g, g ∉ ["id", "email", "phone_number", "role"] →
        doc.getPath ["user", g] = (obj fs).getPath ["user", g]) := by
  -- the values that are written are JSON values
  have hujson : isJSONFields ufs = true := by
    simpa [isJSON] using isJSON_of_ownProp bfs "user" _ hbjson huser
  have hi := isJSON_of_ownProp ufs "id" i hujson hid
  have he := isJSON_of_ownProp ufs "email" e hujson hemail
  have hph := isJSON_of_ownProp ufs "phone_number" ph hujson hphone
  have hrole : (((ownProp ufs "role").getD undefined).or (str "")).isJSON = true := by
    cases hr : ownProp ufs "role" with
    | none => simp [JSVal.or, truthy, isJSON]
    | some ro =>
      have := isJSON_of_ownProp ufs "role" ro hujson hr
      by_cases ht : ro.truthy = true <;> simp [JSVal.or, ht, this, isJSON]
  have hroleRead : ((obj ufs).getMember "role").bind (fun ro => .returns (ro.or (str "")))
      = .returns (((ownProp ufs "role").getD undefined).or (str "")) := by
    cases hr : ownProp ufs "role" with
    | none =>
      have : "role" ∉ objectPrototypeNames := by decide
      simp [getMember, hr, this, Completion.bind]
    | some ro => simp [getMember, hr, Completion.bind]
  -- the world once the request has been sent
  obtain ⟨w1, hw1⟩ : ∃ w1 : World, w1 = { w with net := later, trace := w.trace ++
      [⟨.postCreate self.baseUrl self.token userPayload, some r⟩] } := ⟨_, rfl⟩
  have hsend : w.send (.postCreate self.baseUrl self.token userPayload) = (some r, w1) := by
    simp [World.send, hnet, hw1]
  have hdoc1 : getConfig w1 = .returns (obj fs) := by
    rw [getConfig_congr w w1 (by rw [hw1]), hdoc]
  have hok1 : w1.writesOk 4 = true := by
    rw [writesOk_congr w w1 4 (by rw [hw1]), hw]
  -- the four writes
  obtain ⟨fs1, w2, hset1, hdoc2, hok2, hj1, hget1, htop1, hsib1, hmap1⟩ :=
    setConfig_user_field w1 fs "user.id" "id" i (by decide) (by decide) hdoc1 hjson hi hstore
      (writesOk_one_of_succ w1 3 hok1)
  obtain ⟨fs2, w3, hset2, hdoc3, hok3, hj2, hget2, htop2, hsib2, hmap2⟩ :=
    setConfig_user_field w2 fs1 "user.email" "email" e (by decide) (by decide) hdoc2 hj1 he
      (hmap1 _) (writesOk_one_of_succ w2 2 (hok2 3 hok1))
  obtain ⟨fs3, w4, hset3, hdoc4, hok4, hj3, hget3, htop3, hsib3, hmap3⟩ :=
    setConfig_user_field w3 fs2 "user.phone_number" "phone_number" ph (by decide) (by decide)
      hdoc3 hj2 hph (hmap2 _) (writesOk_one_of_succ w3 1 (hok3 2 (hok2 3 hok1)))
  obtain ⟨fs4, w5, hset4, hdoc5, _, _, hget4, htop4, hsib4, _⟩ :=
    setConfig_user_field w4 fs3 "user.role" "role" _ (by decide) (by decide)
      hdoc4 hj3 hrole (hmap3 _) (hok4 1 (hok3 2 (hok2 3 hok1)))
  have hrun : createUser self w userPayload =
      (.returns { status := 201, body := obj bfs }, self, w5) := by
    have huread : (obj bfs).getMember "user" = .returns (obj ufs) := by
      simp [getMember, huser]
    have hidread : (obj ufs).getMember "id" = .returns i := by simp [getMember, hid]
    have hemread : (obj ufs).getMember "email" = .returns e := by simp [getMember, hemail]
    have hphread : (obj ufs).getMember "phone_number" = .returns ph := by
      simp [getMember, hphone]
    have hut : (obj ufs).truthy = true := rfl
    simp only [createUser, htok, if_true, hsend, Response.json, hbody, hstatus, huread, hut,
      hidread, hemread, hphread, hroleRead, setFrom, hset1, storeThen, hset2, hset3, hset4]
  rw [hrun]
  refine ⟨rfl, obj fs4, hdoc5, ?_, ?_, ?_, hget4, ?_, ?_⟩
  · rw [hsib4 "id" (by decide), hsib3 "id" (by decide), hsib2 "id" (by decide), hget1]
  · rw [hsib4 "email" (by decide), hsib3 "email" (by decide), hget2]
  · rw [hsib4 "phone_number" (by decide), hget3]
  · intro f hf
    rw [htop4 f hf, htop3 f hf, htop2 f hf, htop1 f hf]
  · intro g hg
    simp only [List.mem_cons, List.mem_singleton, List.not_mem_nil, or_false, not_or] at hg
    rw [hsib4 g hg.2.2.2, hsib3 g hg.2.2.1, hsib2 g hg.2.1, hsib1 g hg.1]

/-- The creation of test `PF-03`, on a store that already holds a token and
a password. -/
theorem createUser_persists_witness :
    (createUser ⟨obj [], str "tok", str "http://host"⟩
        ⟨.text (some (obj [("token", str "tok"), ("user", obj [("password", str "pw")])])), [],
          [⟨201, some (obj [("message", str "User created"),
            ("user", obj [("id", num 42), ("email", str "a@b.c"),
              ("phone_number", str "01831234567"), ("role", str "Customer")])])⟩], []⟩
        (obj [])).1
      = .returns { status := 201, body := obj [("message", str "User created"),
          ("user", obj [("id", num 42), ("email", str "a@b.c"),
            ("phone_number", str "01831234567"), ("role", str "Customer")])] } :=
  (createUser_persists ⟨obj [], str "tok", str "http://host"⟩
    ⟨.text (some (obj [("token", str "tok"), ("user", obj [("password", str "pw")])])), [],
      [⟨201, some (obj [("message", str "User created"),
        ("user", obj [("id", num 42), ("email", str "a@b.c"),
          ("phone_number", str "01831234567"), ("role", str "Customer")])])⟩], []⟩
    (obj [])
    ⟨201, some (obj [("message", str "User created"),
      ("user", obj [("id", num 42), ("email", str "a@b.c"),
        ("phone_number", str "01831234567"), ("role", str "Customer")])])⟩
    []
    [("message", str "User created"),
      ("user", obj [("id", num 42), ("email", str "a@b.c"),
        ("phone_number", str "01831234567"), ("role", str "Customer")])]
    [("id", num 42), ("email", str "a@b.c"), ("phone_number", str "01831234567"),
      ("role", str "Customer")]
    [("token", str "tok"), ("user", obj [("password", str "pw")])]
    (num 42) (str "a@b.c") (str "01831234567")
    rfl rfl rfl rfl rfl rfl rfl rfl rfl rfl rfl rfl rfl).1

/-- C6 as stated fails: when the store holds `{"user": "guest"}`, a creation
answered with status 201 and a user object makes `createUser` raise a
`TypeError` instead of returning, and the store holds no `user.id`. -/
theorem createUser_persists_fails :
    (createUser ⟨obj [], str "tok", str "http://host"⟩
        ⟨.text (some (obj [("user", str "guest")])), [],
          [⟨201, some (obj [("user", obj [("id", num 42), ("email", str "a@b.c"),
            ("phone_number", str "01831234567"), ("role", str "Customer")])])⟩], []⟩
        (obj [])).1 = .throws .typeError ∧
    ¬ ∃ doc,
      getConfig (createUser ⟨obj [], str "tok", str "http://host"⟩
        ⟨.text (some (obj [("user", str "guest")])), [],
          [⟨201, some (obj [("user", obj [("id", num 42), ("email", str "a@b.c"),
            ("phone_number", str "01831234567"), ("role", str "Customer")])])⟩], []⟩
        (obj [])).2.2 = .returns doc ∧
      doc.getPath ["user", "id"] = some (num 42) := by
  refine ⟨rfl, ?_⟩
  rintro ⟨doc, hdoc, hid⟩
  have e : getConfig (createUser ⟨obj [], str "tok", str "http://host"⟩
        ⟨.text (some (obj [("user", str "guest")])), [],
          [⟨201, some (obj [("user", obj [("id", num 42), ("email", str "a@b.c"),
            ("phone_number", str "01831234567"), ("role", str "Customer")])])⟩], []⟩
        (obj [])).2.2 = .returns (obj [("user", str "guest")]) := rfl
  rw [e] at hdoc
  cases hdoc
  have e2 : getPath (obj [("user", str "guest")]) ["user", "id"] = none := rfl
  rw [e2] at hid
  cases hid

/-- C7: `getUserList` sends at most two list requests; it sends a second one
only when the first was answered with status 403; and when it returns, the
status and body it returns are those of the last list request it sent.  It
does return whenever the service answers each request with a JSON body. -/
theorem getUserList_bounded_retry (self : UserAgent) (w : World) (email password : JSVal) :
    (w.listsSince (getUserList self w email password).2.2).length ≤ 2 ∧
    ((w.listsSince (getUserList self w email password).2.2).length = 2 →
      ∃ x r, (w.listsSince (getUserList self w email password).2.2).head? = some x ∧
        x.response = some r ∧ r.status = 403) ∧
    (∀ reply, (getUserList self w email password).1 = .returns reply →
      ∃ x r, (w.listsSince (getUserList self w email password).2.2).getLast? = some x ∧
        x.response = some r ∧ r.status = reply.status ∧ r.body = some reply.body) ∧
    (4 ≤ w.net.length → (∀ r ∈ w.net.take 4, r.body.isSome = true) →
      ∃ reply, (getUserList self w email password).1 = .returns reply) := by
  obtain ⟨file, faults, net, trace⟩ := w
  cases htok : self.token.truthy with
  | true =>
    rcases net with _ | ⟨⟨s1, b1⟩, net⟩
    · simp [getUserList, login, World.send, Run.andThen, Response.json, World.listsSince,
        Request.isList, htok]
    · by_cases h1 : s1 = 403
      · subst h1
        rcases net with _ | ⟨⟨s2, b2⟩, net⟩
        · simp [getUserList, login, World.send, Run.andThen, Response.json, World.listsSince,
            Request.isList, htok]
        · rcases b2 with _ | b2
          · simp [getUserList, login, World.send, Run.andThen, Response.json, World.listsSince,
              Request.isList, htok]
          · rcases net with _ | ⟨⟨s3, b3⟩, net⟩
            · simp [getUserList, login, World.send, Run.andThen, Response.json, World.listsSince,
                Request.isList, htok]
            · rcases b3 with _ | b3
              · simp [getUserList, login, World.send, Run.andThen, Response.json, World.listsSince,
                  Request.isList, htok]
              · simp [getUserList, login, World.send, Run.andThen, Response.json, World.listsSince,
                  Request.isList, htok]
      · rcases b1 with _ | b1
        · simp [getUserList, login, World.send, Run.andThen, Response.json, World.listsSince,
            Request.isList, htok, h1]
        · simp [getUserList, login, World.send, Run.andThen, Response.json, World.listsSince,
            Request.isList, htok, h1]
  | false =>
    rcases net with _ | ⟨⟨s0, b0⟩, net⟩
    · simp [getUserList, login, World.send, Run.andThen, Response.json, World.listsSince,
        Request.isList, htok]
    · rcases b0 with _ | b0
      · simp [getUserList, login, World.send, Run.andThen, Response.json, World.listsSince,
          Request.isList, htok]
      ·
        rcases net with _ | ⟨⟨s1, b1⟩, net⟩
        · simp [getUserList, login, World.send, Run.andThen, Response.json, World.listsSince,
            Request.isList, htok]
        · by_cases h1 : s1 = 403
          · subst h1
            rcases net with _ | ⟨⟨s2, b2⟩, net⟩
            · simp [getUserList, login, World.send, Run.andThen, Response.json, World.listsSince,
                Request.isList, htok]
            · rcases b2 with _ | b2
              · simp [getUserList, login, World.send, Run.andThen, Response.json, World.listsSince,
                  Request.isList, htok]
              · rcases net with _ | ⟨⟨s3, b3⟩, net⟩
                · simp [getUserList, login, World.send, Run.andThen, Response.json, World.listsSince,
                    Request.isList, htok]
                · rcases b3 with _ | b3
                  · simp [getUserList, login, World.send, Run.andThen, Response.json, World.listsSince,
                      Request.isList, htok]
                  · simp [getUserList, login, World.send, Run.andThen, Response.json, World.listsSince,
                      Request.isList, htok]
          · rcases b1 with _ | b1
            · simp [getUserList, login, World.send, Run.andThen, Response.json, World.listsSince,
                Request.isList, htok, h1]
            · simp [getUserList, login, World.send, Run.andThen, Response.json, World.listsSince,
                Request.isList, htok, h1]

/-- A token that the service rejects with 403 twice: two list requests are
sent and the second answer is returned. -/
theorem getUserList_bounded_retry_witness :
    ∃ reply,
      (getUserList ⟨obj [], str "old", str "http://host"⟩
        ⟨.absent, [],
          [⟨403, some (obj [("error", str "Token expired!")])⟩,
           ⟨200, some (obj [("token", str "t")])⟩,
           ⟨403, some (obj [("error", str "Token expired!")])⟩,
           ⟨200, some (obj [("users", arr [])])⟩], []⟩
        (str "admin@dmoney.com") (str "1234")).1 = .returns reply :=
  (getUserList_bounded_retry ⟨obj [], str "old", str "http://host"⟩
    ⟨.absent, [],
      [⟨403, some (obj [("error", str "Token expired!")])⟩,
       ⟨200, some (obj [("token", str "t")])⟩,
       ⟨403, some (obj [("error", str "Token expired!")])⟩,
       ⟨200, some (obj [("users", arr [])])⟩], []⟩
    (str "admin@dmoney.com") (str "1234")).2.2.2 (by decide) (by decide)

/-- C8 fails on the code: `getUserList` discards what `login` returns.  With
a held token `old`, a first answer 403 and a login that succeeds with token
`t`, the client still holds `old` and the retried list request carries
`Bearer old`; with no held token, the list request carries `Bearer null`. -/
theorem getUserList_keeps_stale_token :
    (getUserList ⟨obj [], str "old", str "http://host"⟩
        ⟨.absent, [],
          [⟨403, some (obj [("error", str "Token expired!")])⟩,
           ⟨200, some (obj [("token", str "t")])⟩,
           ⟨403, some (obj [("error", str "Token expired!")])⟩], []⟩
        (str "admin@dmoney.com") (str "1234")).2.1.token = str "old" ∧
    (getUserList ⟨obj [], str "old", str "http://host"⟩
        ⟨.absent, [],
          [⟨403, some (obj [("error", str "Token expired!")])⟩,
           ⟨200, some (obj [("token", str "t")])⟩,
           ⟨403, some (obj [("error", str "Token expired!")])⟩], []⟩
        (str "admin@dmoney.com") (str "1234")).2.2.trace.map (fun x => x.request)
      = [.getList (str "http://host") (str "old"),
         .postLogin (str "http://host") (str "admin@dmoney.com") (str "1234"),
         .getList (str "http://host") (str "old")] ∧
    (getUserList ⟨obj [], null, str "http://host"⟩
        ⟨.absent, [],
          [⟨200, some (obj [("token", str "t")])⟩,
           ⟨401, some (obj [("error", str "No Token Found!")])⟩], []⟩
        (str "admin@dmoney.com") (str "1234")).2.2.trace.map (fun x => x.request)
      = [.postLogin (str "http://host") (str "admin@dmoney.com") (str "1234"),
         .getList (str "http://host") null] :=
  ⟨rfl, rfl, rfl⟩

/-- C9 (amended): `login` never changes the client (its token and base URL)
nor the configuration file; and when the service answers with a response
whose body is JSON, whatever its status code, `login` returns that status
code and the parsed body. -/
theorem login_passthrough (self : UserAgent) (w : World) (email password : JSVal) :
    (login self w email password).2.1 = self ∧
    (login self w email password).2.2.file = w.file ∧
    ∀ (r : Response) (later : List Response) (b : JSVal),
      w.net = r :: later → r.body = some b →
      (login self w email password).1 = .returns { status := r.status, body := b } := by
  refine ⟨?_, ?_, ?_⟩
  · rcases w with ⟨file, faults, _ | ⟨⟨status, _ | b⟩, later⟩, trace⟩ <;>
      simp [login, World.send, Response.json]
  · rcases w with ⟨file, faults, _ | ⟨⟨status, _ | b⟩, later⟩, trace⟩ <;>
      simp [login, World.send, Response.json]
  · intro r later b hnet hb
    obtain ⟨file, faults, net, trace⟩ := w
    obtain ⟨status, body⟩ := r
    simp only at hnet hb
    subst hnet hb
    simp [login, World.send, Response.json]

/-- The test `User login with wrong credentials`: status 404 is returned, not raised. -/
theorem login_passthrough_witness :
    (login ⟨obj [], str "old", str "http://host"⟩
        ⟨.absent, [], [⟨404, some (obj [("message", str "User not found")])⟩], []⟩
        (str "admin") (str "1234")).1
      = .returns { status := 404, body := obj [("message", str "User not found")] } :=
  (login_passthrough ⟨obj [], str "old", str "http://host"⟩
    ⟨.absent, [], [⟨404, some (obj [("message", str "User not found")])⟩], []⟩
    (str "admin") (str "1234")).2.2 _ _ _ rfl rfl

/-- C9 as stated fails: a login answered with status 502 and a body that is
not JSON makes `res.json()` raise a `SyntaxError`, which `login` does not
catch; nothing is returned. -/
theorem login_passthrough_fails :
    (login ⟨obj [], str "old", str "http://host"⟩ ⟨.absent, [], [⟨502, none⟩], []⟩
        (str "admin@dmoney.com") (str "1234")).1 = .throws .syntaxError ∧
    ¬ ∃ reply, (login ⟨obj [], str "old", str "http://host"⟩
        ⟨.absent, [], [⟨502, none⟩], []⟩ (str "admin@dmoney.com") (str "1234")).1
      = .returns reply := by
  have e : (login ⟨obj [], str "old", str "http://host"⟩ ⟨.absent, [], [⟨502, none⟩], []⟩
      (str "admin@dmoney.com") (str "1234")).1 = .throws .syntaxError := rfl
  refine ⟨e, ?_⟩
  rintro ⟨reply, h⟩
  rw [e] at h
  cases h

end UserAgent

/-! ### The configuration store: whole-document replacement -/

namespace Utils
open JSVal Utils

/-- C10 (amended): when `d` is a JSON value that `typeof` reports as an
object and the write of the file succeeds, `setConfig(d)` returns and
`getConfig()` then returns exactly `d`, whatever was persisted before and
whatever the value argument is. -/
theorem setConfig_replaces_document (w : World) (d v : JSVal)
    (hobj : d.typeofObject = true) (hjson : d.isJSON = true) (hw : w.writesOk 1 = true) :
    (setConfig w d v).1 = .returns () ∧ getConfig (setConfig w d v).2 = .returns d := by
  have hset : setConfig w d v = writeConfig w d := by
    simp [setConfig, getConfig_eq, hobj]
  rw [hset, writeConfig_ok w d hw hjson]
  exact ⟨rfl, getConfig_written w _ _⟩

/-- A populated store replaced by a one-field document. -/
theorem setConfig_replaces_document_witness :
    (setConfig ⟨.text (some (obj [("token", str "t")])), [], [], []⟩
        (obj [("baseUrl", str "u")]) (num 0)).1 = .returns () ∧
    getConfig (setConfig ⟨.text (some (obj [("token", str "t")])), [], [], []⟩
        (obj [("baseUrl", str "u")]) (num 0)).2 = .returns (obj [("baseUrl", str "u")]) :=
  setConfig_replaces_document _ (obj [("baseUrl", str "u")]) (num 0) rfl rfl rfl

/-- C10 as stated fails: when the write of the file fails, `setConfig(d)`
returns normally and `getConfig()` still returns the previous document. -/
theorem setConfig_replaces_document_fails :
    (setConfig ⟨.text (some (obj [("token", str "t")])), [.failsAtOpen], [], []⟩
        (obj [("baseUrl", str "u")]) .undefined).1 = .returns () ∧
    getConfig (setConfig ⟨.text (some (obj [("token", str "t")])), [.failsAtOpen], [], []⟩
        (obj [("baseUrl", str "u")]) .undefined).2 ≠ .returns (obj [("baseUrl", str "u")]) := by
  refine ⟨rfl, ?_⟩
  have e : getConfig (setConfig ⟨.text (some (obj [("token", str "t")])), [.failsAtOpen], [], []⟩
      (obj [("baseUrl", str "u")]) .undefined).2 = .returns (obj [("token", str "t")]) := rfl
  rw [e]
  simp

end Utils

/-! ### The configuration store: flat keys, and errors of the write -/

namespace Utils
open JSVal Utils

theorem writeConfig_returns (w : World) (cfg : JSVal) :
    (writeConfig w cfg).1 = .returns () := by
  obtain ⟨file, faults, net, trace⟩ := w
  cases cfg <;> rcases faults with _ | ⟨_ | _ | _, later⟩ <;>
    simp [writeConfig, writeFileSync, jsonStringify]

theorem writeConfig_file_of_fault (w : World) (cfg : JSVal) (later : List WriteOutcome)
    (hfault : w.writeFaults = .failsAtOpen :: later) : (writeConfig w cfg).2.file = w.file := by
  obtain ⟨file, faults, net, trace⟩ := w
  simp only at hfault
  subst hfault
  cases cfg <;> simp [writeConfig, writeFileSync, jsonStringify]

theorem walk_returns : ∀ (rest : List String) (p : String) (fs : List (String × JSVal))
    (v : JSVal), (∀ s ∈ (p :: rest).dropLast, s ∉ objectPrototypeNames) →
    mappingsAlong (obj fs) (p :: rest) = true →
    ∃ fs1, walk (obj fs) p rest v = .returns (obj fs1) := by
  intro rest
  induction rest with
  | nil =>
    intro p fs v _ _
    simp only [walk, putMember]
    cases h : ownProp fs p with
    | some x => exact ⟨_, rfl⟩
    | none =>
      by_cases hp : p = "__proto__"
      · exact ⟨fs, by simp [hp]⟩
      · exact ⟨setOwn fs p v, by simp [hp]⟩
  | cons q rest ih =>
    intro p fs v hn hm
    have hp : p ∉ objectPrototypeNames := hn p (by simp [List.dropLast])
    obtain ⟨xs, hstep, hmx, _, _⟩ := stepInto_spec fs p q rest hm
    obtain ⟨xs1, hw⟩ := ih q xs v (fun s hs => hn s (by
      rw [List.dropLast_cons₂]
      exact List.mem_cons_of_mem _ hs)) hmx
    exact ⟨setOwn fs p (obj xs1), by rw [walk_cons_obj fs p q rest v hp, hstep, hw,
      Completion.bind]⟩

theorem setConfig_file_of_fault (w : World) (key value : JSVal) (later : List WriteOutcome)
    (hfault : w.writeFaults = .failsAtOpen :: later) : (setConfig w key value).2.file = w.file := by
  simp only [setConfig, getConfig_eq]
  by_cases hobj : key.typeofObject = true
  · simp [hobj, writeConfig_file_of_fault w _ later hfault]
  · simp only [hobj]
    cases key with
    | str k =>
      simp only [Bool.false_eq_true, if_false]
      split
      · exact writeConfig_file_of_fault w _ later hfault
      · rfl
      · rfl
    | _ => simp

theorem setConfig_flat_eq (w : World) (fs : List (String × JSVal)) (k : String)
    (v : JSVal) (hdoc : getConfig w = .returns (obj fs)) (hjson : isJSONFields fs = true)
    (hv : v.isJSON = true) (hflat : '.' ∉ k.data) (hk : k ≠ "__proto__")
    (hw : w.writesOk 1 = true) :
    setConfig w (.str k) v =
      (.returns (), { w with file := .text (some (obj (setOwn fs k v))),
                             writeFaults := w.writeFaults.tail }) := by
  have hput : (obj fs).putMember k v = .returns (obj (setOwn fs k v)) := by
    cases h : ownProp fs k <;> simp [putMember, h, hk]
  have hj1 : (obj (setOwn fs k v)).isJSON = true := by
    simpa [isJSON] using isJSONFields_setOwn fs k v hjson hv
  simp only [setConfig, hdoc, typeofObject, Bool.false_eq_true, if_false, hflat, hput]
  exact writeConfig_ok w _ hw hj1

/-- C11 (amended): when the persisted document is a mapping of JSON values
(or the file is missing or unparseable), `k` is a flat string key other than
`__proto__`, `v` is a JSON value and the write of the file succeeds,
`setConfig(k, v)` returns, the document read afterwards holds `v` in its
top-level field `k`, and every other top-level field is as it was before. -/
theorem setConfig_flat_frame (w : World) (fs : List (String × JSVal)) (k : String)
    (v : JSVal) (hdoc : getConfig w = .returns (obj fs)) (hjson : isJSONFields fs = true)
    (hv : v.isJSON = true) (hflat : '.' ∉ k.data) (hk : k ≠ "__proto__")
    (hw : w.writesOk 1 = true) :
    (setConfig w (.str k) v).1 = .returns () ∧
    ∃ doc, getConfig (setConfig w (.str k) v).2 = .returns doc ∧
      doc.getPath [k] = some v ∧
      ∀ f, f ≠ k → doc.getPath [f] = (obj fs).getPath [f] := by
  rw [setConfig_flat_eq w fs k v hdoc hjson hv hflat hk hw]
  refine ⟨rfl, obj (setOwn fs k v), getConfig_written w _ _, ?_, ?_⟩
  · simp [getPath, ownProp_setOwn_same]
  · intro f hf
    simp [getPath, ownProp_setOwn_ne fs k f v hf]

/-- The write of `loginAsAdmin`: the key `token` on a store that holds a user. -/
theorem setConfig_flat_frame_witness :
    (setConfig ⟨.text (some (obj [("user", obj [("id", num 1)])])), [], [], []⟩
        (.str "token") (str "t")).1 = .returns () ∧
    ∃ doc, getConfig (setConfig ⟨.text (some (obj [("user", obj [("id", num 1)])])), [], [], []⟩
        (.str "token") (str "t")).2 = .returns doc ∧
      doc.getPath ["token"] = some (str "t") ∧
      ∀ f, f ≠ "token" → doc.getPath [f] = (obj [("user", obj [("id", num 1)])]).getPath [f] :=
  setConfig_flat_frame _ [("user", obj [("id", num 1)])] "token" (str "t") rfl rfl rfl
    (by decide) (by decide) rfl

/-- C11 as stated fails.  With the flat key `__proto__` the assignment reaches
the inherited setter and creates no field, so the document read afterwards
has no top-level field `__proto__`.  And when the write of the file fails,
`setConfig('token', 'new')` returns while the document still holds the old
token. -/
theorem setConfig_flat_frame_fails :
    (¬ ∃ doc, getConfig (setConfig ⟨.text (some (obj [("user", obj [("id", num 1)])])), [], [], []⟩
        (.str "__proto__") (str "x")).2 = .returns doc ∧
      doc.getPath ["__proto__"] = some (str "x")) ∧
    (¬ ∃ doc, getConfig (setConfig ⟨.text (some (obj [("token", str "old")])), [.failsAtOpen], [], []⟩
        (.str "token") (str "new")).2 = .returns doc ∧
      doc.getPath ["token"] = some (str "new")) := by
  constructor
  · rintro ⟨doc, hdoc, hget⟩
    have e : getConfig (setConfig ⟨.text (some (obj [("user", obj [("id", num 1)])])), [], [], []⟩
        (.str "__proto__") (str "x")).2 = .returns (obj [("user", obj [("id", num 1)])]) := rfl
    rw [e] at hdoc
    cases hdoc
    have e2 : getPath (obj [("user", obj [("id", num 1)])]) ["__proto__"] = none := rfl
    rw [e2] at hget
    cases hget
  · rintro ⟨doc, hdoc, hget⟩
    have e : getConfig (setConfig ⟨.text (some (obj [("token", str "old")])), [.failsAtOpen], [], []⟩
        (.str "token") (str "new")).2 = .returns (obj [("token", str "old")]) := rfl
    rw [e] at hdoc
    cases hdoc
    have e2 : getPath (obj [("token", str "old")]) ["token"] = some (str "old") := rfl
    rw [e2] at hget
    simp at hget

end Utils

namespace Utils
open JSVal Utils

/-- C12 (amended): `writeConfig` returns normally whether or not the write of
the file succeeds, so no error of the write reaches the caller of
`setConfig(key, value)`.  For every whole-document key, and for every string
key when the persisted document is a mapping (or the file is missing or
unparseable), no segment before the last names a member of
`Object.prototype` and every value the key meets before its last segment is
a mapping or falsy, the call returns normally for every value, whether or not
the write succeeds; and when that write fails before the file is opened, the
file is left as it was. -/
theorem setConfig_swallows_write_errors (w : World) (key value : JSVal) :
    (∀ cfg, (writeConfig w cfg).1 = .returns ()) ∧
    (key.typeofObject = true →
      (setConfig w key value).1 = .returns () ∧
      ∀ later, w.writeFaults = .failsAtOpen :: later →
        (setConfig w key value).2.file = w.file) ∧
    (∀ (fs : List (String × JSVal)) (k : String), key = .str k →
      getConfig w = .returns (obj fs) →
      (∀ p ∈ (keyPath k).dropLast, p ∉ objectPrototypeNames) →
      mappingsAlong (obj fs) (keyPath k) = true →
      (setConfig w key value).1 = .returns () ∧
      ∀ later, w.writeFaults = .failsAtOpen :: later →
        (setConfig w key value).2.file = w.file) := by
  refine ⟨fun cfg => writeConfig_returns w cfg, ?_, ?_⟩
  · intro hobj
    refine ⟨?_, fun later h => setConfig_file_of_fault w key value later h⟩
    simp [setConfig, getConfig_eq, hobj, writeConfig_returns]
  · intro fs k hkey hdoc hnames hpath
    refine ⟨?_, fun later h => setConfig_file_of_fault w key value later h⟩
    subst hkey
    obtain ⟨p, rest, hk, hset⟩ := setConfig_str_eq w k value (obj fs) hdoc
    rw [hk] at hnames hpath
    obtain ⟨fs1, hwalk⟩ := walk_returns rest p fs value hnames hpath
    rw [hset, hwalk]
    exact writeConfig_returns w _

/-- A dotted key and a whole document, each on a file that cannot be opened
for writing: the call returns and the file keeps its content. -/
theorem setConfig_swallows_write_errors_witness :
    ((setConfig ⟨.text (some (obj [("user", obj [("id", num 1)])])), [.failsAtOpen], [], []⟩
        (.str "user.email") (str "a@b.c")).1 = .returns () ∧
      (setConfig ⟨.text (some (obj [("user", obj [("id", num 1)])])), [.failsAtOpen], [], []⟩
        (.str "user.email") (str "a@b.c")).2.file
        = .text (some (obj [("user", obj [("id", num 1)])]))) ∧
    ((setConfig ⟨.text none, [.failsAtOpen], [], []⟩ (obj [("baseUrl", str "u")])
        .undefined).1 = .returns () ∧
      (setConfig ⟨.text none, [.failsAtOpen], [], []⟩ (obj [("baseUrl", str "u")])
        .undefined).2.file = .text none) :=
  ⟨⟨((setConfig_swallows_write_errors
        ⟨.text (some (obj [("user", obj [("id", num 1)])])), [.failsAtOpen], [], []⟩
        (.str "user.email") (str "a@b.c")).2.2 [("user", obj [("id", num 1)])] "user.email"
        rfl rfl (by decide) rfl).1,
    ((setConfig_swallows_write_errors
        ⟨.text (some (obj [("user", obj [("id", num 1)])])), [.failsAtOpen], [], []⟩
        (.str "user.email") (str "a@b.c")).2.2 [("user", obj [("id", num 1)])] "user.email"
        rfl rfl (by decide) rfl).2 [] rfl⟩,
   ⟨((setConfig_swallows_write_errors ⟨.text none, [.failsAtOpen], [], []⟩
        (obj [("baseUrl", str "u")]) .undefined).2.1 rfl).1,
    ((setConfig_swallows_write_errors ⟨.text none, [.failsAtOpen], [], []⟩
        (obj [("baseUrl", str "u")]) .undefined).2.1 rfl).2 [] rfl⟩⟩

/-- C12 as stated fails, in both of its sentences.  `setConfig` does not
return normally for every persisted state and key: on the document
`{"token": "abc"}` the dotted key `token.value` assigns a property on a
string, and on a file that holds `null` the flat key `token` assigns a
property on `null`; each raises a `TypeError` that reaches the caller.  And a
failed write does not always leave the persisted document as it was: when
the write fails after the file was opened, `setConfig('token', 'new')`
returns normally, the file is left empty and `getConfig()` then returns `{}`
instead of the document that held the old token. -/
theorem setConfig_swallows_write_errors_fails :
    ((setConfig ⟨.text (some (obj [("token", str "abc")])), [], [], []⟩
        (.str "token.value") (num 1)).1 = .throws .typeError ∧
      (setConfig ⟨.text (some null), [], [], []⟩ (.str "token") (str "t")).1
        = .throws .typeError ∧
      (setConfig ⟨.text (some (obj [("token", str "abc")])), [], [], []⟩
        (.str "token.value") (num 1)).1 ≠ .returns ()) ∧
    ((setConfig ⟨.text (some (obj [("token", str "old")])), [.failsAfterOpen none], [], []⟩
        (.str "token") (str "new")).1 = .returns () ∧
      (setConfig ⟨.text (some (obj [("token", str "old")])), [.failsAfterOpen none], [], []⟩
        (.str "token") (str "new")).2.file ≠ .text (some (obj [("token", str "old")])) ∧
      getConfig (setConfig ⟨.text (some (obj [("token", str "old")])),
        [.failsAfterOpen none], [], []⟩ (.str "token") (str "new")).2 = .returns (obj [])) := by
  refine ⟨⟨rfl, rfl, ?_⟩, rfl, ?_, rfl⟩
  · have e : (setConfig ⟨.text (some (obj [("token", str "abc")])), [], [], []⟩
        (.str "token.value") (num 1)).1 = .throws .typeError := rfl
    rw [e]
    simp
  · have e : (setConfig ⟨.text (some (obj [("token", str "old")])),
        [.failsAfterOpen none], [], []⟩ (.str "token") (str "new")).2.file = .text none := rfl
    rw [e]
    simp

end Utils

/-! ### The service client: update and delete -/

namespace UserAgent
open JSVal Utils

/-- C13 (amended): on a client that holds a token, `updateUser` and
`deleteUser` each send exactly one request, never change the client (its
token) nor the configuration file nor attempt a write of it, and, when the
service answers with a response whose body is JSON, whatever its status code,
return that status code and the parsed body. -/
theorem update_delete_passthrough (self : UserAgent) (w : World) (userId data : JSVal)
    (htok : self.token.truthy = true) :
    ((updateUser self w userId data).2.1 = self ∧
      (updateUser self w userId data).2.2.file = w.file ∧
      (updateUser self w userId data).2.2.writeFaults = w.writeFaults ∧
      (updateUser self w userId data).2.2.trace = w.trace ++
        [⟨.patchUpdate self.baseUrl self.token userId data, w.net.head?⟩] ∧
      ∀ (r : Response) (later : List Response) (b : JSVal),
        w.net = r :: later → r.body = some b →
        (updateUser self w userId data).1 = .returns { status := r.status, body := b }) ∧
    ((deleteUser self w userId).2.1 = self ∧
      (deleteUser self w userId).2.2.file = w.file ∧
      (deleteUser self w userId).2.2.writeFaults = w.writeFaults ∧
      (deleteUser self w userId).2.2.trace = w.trace ++
        [⟨.deleteUser self.baseUrl self.token userId, w.net.head?⟩] ∧
      ∀ (r : Response) (later : List Response) (b : JSVal),
        w.net = r :: later → r.body = some b →
        (deleteUser self w userId).1 = .returns { status := r.status, body := b }) := by
  constructor
  · refine ⟨?_, ?_, ?_, ?_, ?_⟩
    · rcases w with ⟨file, faults, _ | ⟨⟨status, _ | b⟩, later⟩, trace⟩ <;>
        simp [updateUser, htok, World.send, Response.json]
    · rcases w with ⟨file, faults, _ | ⟨⟨status, _ | b⟩, later⟩, trace⟩ <;>
        simp [updateUser, htok, World.send, Response.json]
    · rcases w with ⟨file, faults, _ | ⟨⟨status, _ | b⟩, later⟩, trace⟩ <;>
        simp [updateUser, htok, World.send, Response.json]
    · rcases w with ⟨file, faults, _ | ⟨⟨status, _ | b⟩, later⟩, trace⟩ <;>
        simp [updateUser, htok, World.send, Response.json]
    · intro r later b hnet hb
      obtain ⟨file, faults, net, trace⟩ := w
      obtain ⟨status, body⟩ := r
      simp only at hnet hb
      subst hnet hb
      simp [updateUser, htok, World.send, Response.json]
  · refine ⟨?_, ?_, ?_, ?_, ?_⟩
    · rcases w with ⟨file, faults, _ | ⟨⟨status, _ | b⟩, later⟩, trace⟩ <;>
        simp [deleteUser, htok, World.send, Response.json]
    · rcases w with ⟨file, faults, _ | ⟨⟨status, _ | b⟩, later⟩, trace⟩ <;>
        simp [deleteUser, htok, World.send, Response.json]
    · rcases w with ⟨file, faults, _ | ⟨⟨status, _ | b⟩, later⟩, trace⟩ <;>
        simp [deleteUser, htok, World.send, Response.json]
    · rcases w with ⟨file, faults, _ | ⟨⟨status, _ | b⟩, later⟩, trace⟩ <;>
        simp [deleteUser, htok, World.send, Response.json]
    · intro r later b hnet hb
      obtain ⟨file, faults, net, trace⟩ := w
      obtain ⟨status, body⟩ := r
      simp only at hnet hb
      subst hnet hb
      simp [deleteUser, htok, World.send, Response.json]

/-- The test `Delete user - deleting already deleted user`: the answer 404
is returned as data, and an update answered 200 likewise. -/
theorem update_delete_passthrough_witness :
    (updateUser ⟨obj [], str "tok", str "http://host"⟩
        ⟨.text (some (obj [("user", obj [("id", num 7)])])), [],
          [⟨200, some (obj [("message", str "User updated")])⟩], []⟩
        (num 7) (obj [("phone_number", str "01831234567")])).1
      = .returns { status := 200, body := obj [("message", str "User updated")] } ∧
    (deleteUser ⟨obj [], str "tok", str "http://host"⟩
        ⟨.text (some (obj [("user", obj [("id", num 7)])])), [],
          [⟨404, some (obj [("message", str "User not found")])⟩], []⟩ (num 7)).1
      = .returns { status := 404, body := obj [("message", str "User not found")] } :=
  ⟨(update_delete_passthrough ⟨obj [], str "tok", str "http://host"⟩
      ⟨.text (some (obj [("user", obj [("id", num 7)])])), [],
        [⟨200, some (obj [("message", str "User updated")])⟩], []⟩
      (num 7) (obj [("phone_number", str "01831234567")]) rfl).1.2.2.2.2 _ _ _ rfl rfl,
   (update_delete_passthrough ⟨obj [], str "tok", str "http://host"⟩
      ⟨.text (some (obj [("user", obj [("id", num 7)])])), [],
        [⟨404, some (obj [("message", str "User not found")])⟩], []⟩
      (num 7) .undefined rfl).2.2.2.2.2 _ _ _ rfl rfl⟩

/-- C13 as stated fails: an update or a delete answered with status 204 and
no body makes `res.json()` raise a `SyntaxError`, which neither method
catches; nothing is returned. -/
theorem update_delete_passthrough_fails :
    ((updateUser ⟨obj [], str "tok", str "http://host"⟩ ⟨.absent, [], [⟨204, none⟩], []⟩
        (num 7) (obj [("phone_number", str "01831234567")])).1 = .throws .syntaxError ∧
      ¬ ∃ reply, (updateUser ⟨obj [], str "tok", str "http://host"⟩
          ⟨.absent, [], [⟨204, none⟩], []⟩
          (num 7) (obj [("phone_number", str "01831234567")])).1 = .returns reply) ∧
    ((deleteUser ⟨obj [], str "tok", str "http://host"⟩ ⟨.absent, [], [⟨204, none⟩], []⟩
        (num 7)).1 = .throws .syntaxError ∧
      ¬ ∃ reply, (deleteUser ⟨obj [], str "tok", str "http://host"⟩
          ⟨.absent, [], [⟨204, none⟩], []⟩ (num 7)).1 = .returns reply) := by
  have e1 : (updateUser ⟨obj [], str "tok", str "http://host"⟩
      ⟨.absent, [], [⟨204, none⟩], []⟩
      (num 7) (obj [("phone_number", str "01831234567")])).1 = .throws .syntaxError := rfl
  have e2 : (deleteUser ⟨obj [], str "tok", str "http://host"⟩
      ⟨.absent, [], [⟨204, none⟩], []⟩ (num 7)).1 = .throws .syntaxError := rfl
  refine ⟨⟨e1, ?_⟩, e2, ?_⟩
  · rintro ⟨reply, h⟩
    rw [e1] at h
    cases h
  · rintro ⟨reply, h⟩
    rw [e2] at h
    cases h

end UserAgent

/-! ### The helpers of the suite -/

namespace Helper
open JSVal Utils UserAgent

/-- C14 (amended): when the service answers the login with a JSON body,
`loginAsAdmin` fails with the assertion error if the status is not 200, and
then leaves the client and the configuration file as they were.  If the
status is 200, `body.token` reads as a JSON value, the persisted document is
a mapping of JSON values (or the file is missing or unparseable) and the
write of the file succeeds, it returns the login result, the client's token
becomes `body.token`, the store afterwards holds that value in its top-level
field `token`, and every other top-level field of the store is as it was. -/
theorem loginAsAdmin_adopts_token (agent : UserAgent) (w : World) (r : Response)
    (later : List Response) (body : JSVal) (hnet : w.net = r :: later)
    (hbody : r.body = some body) :
    (r.status ≠ 200 →
      (loginAsAdmin agent w).1 = .throws .assertion ∧
      (loginAsAdmin agent w).2.1 = agent ∧
      (loginAsAdmin agent w).2.2.file = w.file ∧
      (loginAsAdmin agent w).2.2.writeFaults = w.writeFaults) ∧
    (r.status = 200 →
      ∀ (token : JSVal) (fs : List (String × JSVal)),
        body.getMember "token" = .returns token → token.isJSON = true →
        getConfig w = .returns (obj fs) → isJSONFields fs = true → w.writesOk 1 = true →
        (loginAsAdmin agent w).1 = .returns { status := 200, body := body } ∧
        (loginAsAdmin agent w).2.1 = { agent with token := token } ∧
        ∃ doc, getConfig (loginAsAdmin agent w).2.2 = .returns doc ∧
          doc.getPath ["token"] = some token ∧
          ∀ f, f ≠ "token" → doc.getPath [f] = (obj fs).getPath [f]) := by
  obtain ⟨w1, hw1⟩ : ∃ w1 : World, w1 = { w with net := later, trace := w.trace ++
      [⟨.postLogin agent.baseUrl (.str "admin@dmoney.com") (.str "1234"), some r⟩] } :=
    ⟨_, rfl⟩
  have hlogin : agent.login w (.str "admin@dmoney.com") (.str "1234")
      = (.returns { status := r.status, body := body }, agent, w1) := by
    simp [login, World.send, hnet, Response.json, hbody, hw1]
  constructor
  · intro hne
    simp [loginAsAdmin, hlogin, Run.andThen, hne, hw1]
  · intro h200 token fs htoken htj hdoc hjson hw
    have hdoc1 : getConfig w1 = .returns (obj fs) := by
      rw [getConfig_congr w w1 (by rw [hw1]), hdoc]
    have hok1 : w1.writesOk 1 = true := by
      rw [writesOk_congr w w1 1 (by rw [hw1]), hw]
    have hset := setConfig_flat_eq w1 fs "token" token hdoc1 hjson htj (by decide) (by decide)
      hok1
    have hrun : loginAsAdmin agent w =
        (.returns { status := 200, body := body }, { agent with token := token },
          { w1 with file := .text (some (obj (setOwn fs "token" token))),
                    writeFaults := w1.writeFaults.tail }) := by
      simp only [loginAsAdmin, hlogin, Run.andThen, h200, if_true, htoken, hset]
    rw [hrun]
    refine ⟨rfl, rfl, obj (setOwn fs "token" token), getConfig_written w1 _ _, ?_, ?_⟩
    · simp [getPath, ownProp_setOwn_same]
    · intro f hf
      simp [getPath, ownProp_setOwn_ne fs "token" f token hf]

/-- A rejected login (status 404), and the login of scenario A (status 200
with a token) on a store that holds the base URL. -/
theorem loginAsAdmin_adopts_token_witness :
    ((loginAsAdmin ⟨obj [], null, str "http://host"⟩
        ⟨.text (some (obj [("baseUrl", str "http://host")])), [],
          [⟨404, some (obj [("message", str "User not found")])⟩], []⟩).1
        = .throws .assertion) ∧
    ((loginAsAdmin ⟨obj [], null, str "http://host"⟩
        ⟨.text (some (obj [("baseUrl", str "http://host")])), [],
          [⟨200, some (obj [("token", str "t")])⟩], []⟩).2.1
        = ⟨obj [], str "t", str "http://host"⟩) :=
  ⟨((loginAsAdmin_adopts_token ⟨obj [], null, str "http://host"⟩
        ⟨.text (some (obj [("baseUrl", str "http://host")])), [],
          [⟨404, some (obj [("message", str "User not found")])⟩], []⟩
        ⟨404, some (obj [("message", str "User not found")])⟩ []
        (obj [("message", str "User not found")]) rfl rfl).1 (by decide)).1,
   ((loginAsAdmin_adopts_token ⟨obj [], null, str "http://host"⟩
        ⟨.text (some (obj [("baseUrl", str "http://host")])), [],
          [⟨200, some (obj [("token", str "t")])⟩], []⟩
        ⟨200, some (obj [("token", str "t")])⟩ []
        (obj [("token", str "t")]) rfl rfl).2 rfl (str "t") [("baseUrl", str "http://host")]
        rfl rfl rfl rfl rfl).2.1⟩

/-- C14 as stated fails.  A login answered with status 200 and the body `null`
makes `res.body.token` raise a `TypeError`: nothing is adopted or returned.
And when the write of the file fails, a login answered with status 200 and a
token is adopted by the client while the store still holds the old token. -/
theorem loginAsAdmin_adopts_token_fails :
    (loginAsAdmin ⟨obj [], null, str "http://host"⟩
        ⟨.text (some (obj [("token", str "old")])), [], [⟨200, some null⟩], []⟩).1
      = .throws .typeError ∧
    ((loginAsAdmin ⟨obj [], null, str "http://host"⟩
        ⟨.text (some (obj [("token", str "old")])), [.failsAtOpen],
          [⟨200, some (obj [("token", str "t")])⟩], []⟩).2.1.token = str "t" ∧
      ¬ ∃ doc, getConfig (loginAsAdmin ⟨obj [], null, str "http://host"⟩
          ⟨.text (some (obj [("token", str "old")])), [.failsAtOpen],
            [⟨200, some (obj [("token", str "t")])⟩], []⟩).2.2 = .returns doc ∧
        doc.getPath ["token"] = some (str "t")) := by
  refine ⟨rfl, rfl, ?_⟩
  rintro ⟨doc, hdoc, hget⟩
  have e : getConfig (loginAsAdmin ⟨obj [], null, str "http://host"⟩
      ⟨.text (some (obj [("token", str "old")])), [.failsAtOpen],
        [⟨200, some (obj [("token", str "t")])⟩], []⟩).2.2
      = .returns (obj [("token", str "old")]) := rfl
  rw [e] at hdoc
  cases hdoc
  have e2 : getPath (obj [("token", str "old")]) ["token"] = some (str "old") := rfl
  rw [e2] at hget
  simp at hget

end Helper

namespace Helper
open JSVal Utils UserAgent

theorem timesTen_lt (x : RandomOutcome) : timesTen x < 10 * 2 ^ 53 := by
  have hm := x.significand_lt
  simp only [timesTen, excessBits, roundHalfEven]
  norm_num at hm ⊢
  split_ifs <;> omega

theorem randomDigit_lt (x : RandomOutcome) : randomDigit x < 10 := by
  have h1 := timesTen_lt x
  have h2 : 2 ^ 53 ≤ 2 ^ x.scale := Nat.pow_le_pow_right (by norm_num) x.scale_ge
  rw [randomDigit, Nat.div_lt_iff_lt_mul (by positivity)]
  omega

/-- The double 0.7 is `6305039478318694 / 2 ^ 53`; ten times it is halfway
between two doubles and rounds to 7, and the double 0.3 likewise gives 3. -/
theorem randomDigit_rounds :
    randomDigit ⟨6305039478318694, 53, by norm_num, by norm_num, by norm_num⟩ = 7 ∧
    randomDigit ⟨5404319552844595, 54, by norm_num, by norm_num, by norm_num⟩ = 3 := by
  constructor <;> decide

theorem digit_toString (d : Nat) (h10 : d < 10) :
    (toString d).length = 1 ∧ ∀ c ∈ (toString d).data, c.isDigit = true := by
  interval_cases d <;> decide

theorem randomNidLoop_spec (random : Nat → RandomOutcome) :
    ∀ (remaining i : Nat) (nid : String),
      (randomNidLoop random remaining i nid).length = nid.length + remaining ∧
      ((∀ c ∈ nid.data, c.isDigit = true) →
        ∀ c ∈ (randomNidLoop random remaining i nid).data, c.isDigit = true) := by
  intro remaining
  induction remaining with
  | zero =>
    intro i nid
    exact ⟨rfl, fun h => h⟩
  | succ k ih =>
    intro i nid
    obtain ⟨hlen, hdig⟩ := digit_toString _ (randomDigit_lt (random i))
    obtain ⟨ihlen, ihdig⟩ := ih (i + 1) (nid ++ toString (randomDigit (random i)))
    constructor
    · rw [randomNidLoop, ihlen, String.length_append, hlen]
      omega
    · intro hnid
      rw [randomNidLoop]
      apply ihdig
      intro c hc
      rw [String.data_append, List.mem_append] at hc
      rcases hc with hc | hc
      · exact hnid c hc
      · exact hdig c hc

/-- C15: for every natural number `n` and every sequence of doubles in
[0, 1) that `Math.random()` gives, `randomNid(n)` is a string of exactly `n` characters, each a
decimal digit; it is the empty string for `n = 0`; and `randomNid()` without
an argument is a string of exactly 10 decimal digits. -/
theorem randomNid_digits (random : Nat → RandomOutcome) (n : Nat) :
    (randomNid random (some n)).length = n ∧
    (∀ c ∈ (randomNid random (some n)).data, c.isDigit = true) ∧
    randomNid random (some 0) = "" ∧
    (randomNid random none).length = 10 ∧
    (∀ c ∈ (randomNid random none).data, c.isDigit = true) := by
  have hempty : ∀ c ∈ ("" : String).data, c.isDigit = true := by
    intro c hc
    simp at hc
  refine ⟨?_, ?_, rfl, ?_, ?_⟩
  · have := (randomNidLoop_spec random n 0 "").1
    simpa [randomNid] using this
  · exact (randomNidLoop_spec random n 0 "").2 hempty
  · have := (randomNidLoop_spec random 10 0 "").1
    simpa [randomNid] using this
  · exact (randomNidLoop_spec random 10 0 "").2 hempty

end Helper
